import Mathlib

/-!
# Data-access layer of the UV exposure app (services/api.js)

A shallow embedding of `services/api.js`: the connection state manager, the
network-resilient request handler `makeNetworkRequest`, the cached UV client
`getUVData`, the single-flight `writeQueue`, the flush `processChanges` of the
history feed and the colour mapping `getRiskColor`.

Asynchronous code is embedded by explicit state passing.  Every effect on the
outside (transport toggles, invocations of the supplied operation, backoff
timers, listener notifications) is appended to a trace, so that "how many
times" and "in which order" are statements about that trace.
-/

namespace ApiUsage

/-! ## JavaScript numbers, as far as `getUVData` looks at them -/

/-- A JavaScript number.  A finite double is a dyadic rational, written here
`m / 2 ^ k`; every finite double has this shape with its exact value, and the
code of `getUVData` only compares its arguments with integer constants and
renders them with `toFixed`, both of which depend on the exact value only. -/
inductive JSNumber where
  | nan
  | posInf
  | negInf
  | finite (m : Int) (k : Nat)
  deriving DecidableEq, Repr

/-- A JavaScript value as seen by the test `typeof v !== number`: a number or
anything else (undefined, null, a string, an object). -/
inductive JSValue where
  | number (n : JSNumber)
  | other
  deriving DecidableEq, Repr

/-- The comparison `x < c` of a number with an integer constant `c`; every
comparison with NaN is false. -/
def JSNumber.ltConst : JSNumber → Int → Bool
  | .nan, _ => false
  | .posInf, _ => false
  | .negInf, _ => true
  | .finite m k, c => decide (m < c * 2 ^ k)

/-- The comparison `x > c` of a number with an integer constant `c`; every
comparison with NaN is false. -/
def JSNumber.gtConst : JSNumber → Int → Bool
  | .nan, _ => false
  | .posInf, _ => true
  | .negInf, _ => false
  | .finite m k, c => decide (c * 2 ^ k < m)

/-- The digits of the decimal representation of `n`, padded and split as
`Number.prototype.toFixed` does for `f` fraction digits (ECMAScript, step 11 of
the algorithm): when there are at most `f` digits, zeros are put in front up to
`f + 1` digits, and a point is put before the last `f` digits. -/
def fixedDigits (f n : Nat) : List Char :=
  let m := Nat.toDigits 10 n
  let m := if m.length ≤ f then List.replicate (f + 1 - m.length) (Char.ofNat 48) ++ m else m
  m.take (m.length - f) ++ [Char.ofNat 46] ++ m.drop (m.length - f)

/-- The integer `n` for which `n / 10 ^ f - a / 2 ^ k` is as close to zero as
possible, the larger one when there are two (ECMAScript toFixed, step 11.a). -/
def nearestScaled (f a k : Nat) : Nat :=
  (2 * a * 10 ^ f + 2 ^ k) / 2 ^ (k + 1)

/-- The call `x.toFixed(4)`.  A value that is not finite is rendered by
`Number::toString`; a negative value gives a minus sign followed by the
rendering of its absolute value, also when that rounds to zero.  The branch of
the algorithm for `|x| >= 10 ^ 21` is not part of this embedding: behind the
range check of `getUVData` a finite argument is at most 180 in absolute
value. -/
def toFixed4 : JSNumber → String
  | .nan => "NaN"
  | .posInf => "Infinity"
  | .negInf => "-Infinity"
  | .finite m k =>
      let s := if m < 0 then "-" else ""
      s ++ String.mk (fixedDigits 4 (nearestScaled 4 m.natAbs k))

/-- The cache key of `getUVData` (api.js line 101): the two renderings joined
by a comma. -/
def cacheKey (lat lng : JSNumber) : String :=
  toFixed4 lat ++ "," ++ toFixed4 lng

/-! ## Connection state manager -/

deriving instance DecidableEq for Except

/-- A thrown JavaScript error object: its message and its `code` property, when
it has one (Firestore errors carry a code such as `unavailable`). -/
structure JSError where
  message : String
  code : Option String
  deriving DecidableEq, Repr

/-- A registered listener: a callback taking the new online flag.  `throws v`
is the error the callback throws when called with `v`, if it throws. -/
structure Listener where
  id : Nat
  throws : Bool → Option JSError

/-- The object `connectionState` (api.js lines 18-22).  `listeners` is the
JavaScript `Set` in insertion order, the order in which `forEach` visits it. -/
structure ConnectionState where
  isOnline : Bool
  retryAttempts : Nat
  maxRetries : Nat
  listeners : List Listener

/-- What the module does to the outside, in the order in which it happens:
the two transport toggles, an invocation `operation()` (api.js line 37), a
backoff timer (lines 48-50), a call of a listener (line 27), and the call
`makeNetworkRequest(operation)` of the write queue for the write with the given
key (line 143). -/
inductive Event where
  | enableNetwork
  | disableNetwork
  | invoke
  | sleep (ms : Nat)
  | notify (listener : Nat) (online : Bool)
  | execute (key : String)
  deriving DecidableEq, Repr

/-- The state an executor run works on: the connection state, the outside
world `W` the supplied operations act on, and the trace of effects so far. -/
structure Runtime (W : Type) where
  conn : ConnectionState
  world : W
  trace : List Event

/-- An asynchronous operation `() => Promise<T>` handed to the executor: it may
read the connection state, acts on the outside world and either returns a
value or throws. -/
abbrev Operation (W α : Type) := ConnectionState → W → Except JSError α × W

/-- Append one effect to the trace. -/
def Runtime.log {W : Type} (rt : Runtime W) (e : Event) : Runtime W :=
  { rt with trace := rt.trace ++ [e] }

/-- The loop `listeners.forEach(listener => listener(isOnline))` (api.js line
27): listeners are called in order; an exception thrown by one of them leaves
`forEach` at once, so the listeners after it are not called. -/
def notifyListeners (isOnline : Bool) : List Listener → List Event → Option JSError × List Event
  | [], tr => (none, tr)
  | l :: ls, tr =>
      match l.throws isOnline with
      | some e => (some e, tr ++ [Event.notify l.id isOnline])
      | none => notifyListeners isOnline ls (tr ++ [Event.notify l.id isOnline])

/-- The method `connectionState.setOnlineStatus` (api.js lines 24-28).  The
result is the exception that leaves the method, if any. -/
def setOnlineStatus {W : Type} (isOnline : Bool) (rt : Runtime W) : Option JSError × Runtime W :=
  let c1 := { rt.conn with isOnline := isOnline }
  let c2 := { c1 with retryAttempts := if isOnline then 0 else c1.retryAttempts }
  let r := notifyListeners isOnline c2.listeners rt.trace
  (r.1, { rt with conn := c2, trace := r.2 })

/-! ## Network-resilient request handler -/

/-- The function `makeNetworkRequest` (api.js lines 32-53), as one run that no
other task overlaps: between its start and its return nothing else reads or
writes `connectionState`.  The source suspends at its awaits (lines 35, 37, 43
and 48) and shares the module-wide `connectionState` with every other run; a
run that other runs overlap is the subject of `Run.step` and `interleave`
below.  `fuel` bounds the depth of the recursive re-invocation at line 51;
`none` means that the recursion went deeper than `fuel`.  The transport toggles
`enableNetwork(db)` and `disableNetwork(db)` of the store SDK are effects in
the trace and are taken to succeed. -/
def makeNetworkRequest {W α : Type} (operation : Operation W α) :
    Nat → Runtime W → Option (Except JSError α × Runtime W)
  | 0, _ => none
  | fuel + 1, rt =>
      let rt1 := if rt.conn.isOnline then rt.log Event.enableNetwork else rt
      match operation rt1.conn rt1.world with
      | (.ok result, w) => some (.ok result, { rt1.log Event.invoke with world := w })
      | (.error error, w) =>
          let rt2 := { rt1.log Event.invoke with world := w }
          let rt3 := { rt2 with conn := { rt2.conn with retryAttempts := rt2.conn.retryAttempts + 1 } }
          if rt3.conn.retryAttempts ≥ rt3.conn.maxRetries then
            match setOnlineStatus false rt3 with
            | (some thrown, rt4) => some (.error thrown, rt4)
            | (none, rt4) => some (.error error, rt4.log Event.disableNetwork)
          else
            makeNetworkRequest operation fuel
              (rt3.log (Event.sleep (2 ^ rt3.conn.retryAttempts * 100)))

/-- The connection state as the module creates it (api.js lines 18-22), with
the given listeners registered. -/
def initialConnection (listeners : List Listener) : ConnectionState :=
  { isOnline := true, retryAttempts := 0, maxRetries := 3, listeners := listeners }

/-- The number of invocations of the supplied operation in a trace. -/
def invocations (tr : List Event) : Nat := tr.count Event.invoke

/-- The backoff delays in a trace, in order. -/
def delays : List Event → List Nat
  | [] => []
  | Event.sleep ms :: tr => ms :: delays tr
  | _ :: tr => delays tr

/-- The listeners notified in a trace with the value `online`, in order. -/
def notified (online : Bool) : List Event → List Nat
  | [] => []
  | Event.notify l v :: tr => if v = online then l :: notified online tr else notified online tr
  | _ :: tr => notified online tr

/-! ## Overlapping runs of the request handler -/

/-- Where a run of `makeNetworkRequest` stands: about to enter the `try` block
(a fresh call, or the re-invocation of line 51), suspended at
`await operation()` (line 37) with the outcome the operation will deliver,
suspended at the backoff timer (lines 48-50), or returned. -/
inductive Run (α : Type) where
  | ready
  | awaiting (outcome : Except JSError α)
  | sleeping
  | returned (result : Except JSError α)
  deriving DecidableEq, Repr

/-- One step of a run of `makeNetworkRequest` on the shared runtime, from one
suspension to the next: lines 34-37 up to the await of the operation; the
`catch` block up to the timer, or the return; the re-invocation when the timer
fires.  Other runs may take steps in between.  The awaits of the transport
toggles (lines 35 and 43) are not split off, so the schedules of these steps
are among the schedules of the source. -/
def Run.step {W α : Type} (operation : Operation W α) :
    Run α → Runtime W → Run α × Runtime W
  | .ready, rt =>
      let rt1 := if rt.conn.isOnline then rt.log Event.enableNetwork else rt
      match operation rt1.conn rt1.world with
      | (outcome, w) => (.awaiting outcome, { rt1.log Event.invoke with world := w })
  | .awaiting (.ok result), rt => (.returned (.ok result), rt)
  | .awaiting (.error error), rt =>
      let rt3 := { rt with conn := { rt.conn with retryAttempts := rt.conn.retryAttempts + 1 } }
      if rt3.conn.retryAttempts ≥ rt3.conn.maxRetries then
        match setOnlineStatus false rt3 with
        | (some thrown, rt4) => (.returned (.error thrown), rt4)
        | (none, rt4) => (.returned (.error error), rt4.log Event.disableNetwork)
      else
        (.sleeping, rt3.log (Event.sleep (2 ^ rt3.conn.retryAttempts * 100)))
  | .sleeping, rt => (.ready, rt)
  | .returned result, rt => (.returned result, rt)

/-- Which of two runs takes the next step. -/
inductive Turn where
  | first
  | second
  deriving DecidableEq, Repr

/-- Two runs of `makeNetworkRequest` on one runtime, stepped in the order of
the schedule. -/
def interleave {W α : Type} (first second : Operation W α) :
    List Turn → Run α × Run α × Runtime W → Run α × Run α × Runtime W
  | [], s => s
  | Turn.first :: schedule, (a, b, rt) =>
      interleave first second schedule ((Run.step first a rt).1, b, (Run.step first a rt).2)
  | Turn.second :: schedule, (a, b, rt) =>
      interleave first second schedule (a, (Run.step second b rt).1, (Run.step second b rt).2)

/-! ## Cached UV client -/

/-- The field `OPENUV_CONFIG.CACHE_DURATION` (api.js line 14), in milliseconds. -/
def CACHE_DURATION : Int := 5 * 60 * 1000

/-- The object `{ ...data, lat, lng }` (api.js line 110): the payload of the
provider with the requesting coordinate attached. -/
structure UVResponse (P : Type) where
  payload : P
  lat : JSNumber
  lng : JSNumber
  deriving DecidableEq, Repr

/-- A value of the map `uvDataCache` (api.js lines 112-115). -/
structure CacheEntry (P : Type) where
  data : UVResponse P
  timestamp : Int
  deriving DecidableEq, Repr

/-- The method `Map.prototype.get` on a map with string keys. -/
def mapGet {β : Type} : List (String × β) → String → Option β
  | [], _ => none
  | (k, v) :: m, key => if k = key then some v else mapGet m key

/-- The method `Map.prototype.set` on a map with string keys: the value of an
existing key is overwritten in place, a new key is appended. -/
def mapSet {β : Type} : List (String × β) → String → β → List (String × β)
  | [], key, value => [(key, value)]
  | (k, v) :: m, key, value =>
      if k = key then (key, value) :: m else (k, v) :: mapSet m key value

/-- The test of api.js line 105 on the result of `uvDataCache.get(cacheKey)`:
the cached data when there is an entry and `Date.now() - cached.timestamp` is
below `CACHE_DURATION`. -/
def freshData {P : Type} (cached : Option (CacheEntry P)) (now : Int) : Option (UVResponse P) :=
  match cached with
  | some cached => if now - cached.timestamp < CACHE_DURATION then some cached.data else none
  | none => none

/-- The error thrown at api.js line 98. -/
def invalidCoordinates : JSError := ⟨"Invalid coordinates provided", none⟩

/-- The function `getUVData` (api.js lines 94-118).  `fetchUVData lat lng` is
the operation `() => fetchUVData(lat, lng)` of line 109, whose HTTP exchange is
outside this module; `now₁` and `now₂` are the values of the two calls of
`Date.now()` (lines 105 and 114); `fuel` is handed to `makeNetworkRequest`. -/
def getUVData {W P : Type} (fetchUVData : JSNumber → JSNumber → Operation W P)
    (fuel : Nat) (now₁ now₂ : Int) (lat lng : JSValue)
    (uvDataCache : List (String × CacheEntry P)) (rt : Runtime W) :
    Option (Except JSError (UVResponse P) × List (String × CacheEntry P) × Runtime W) :=
  match lat, lng with
  | .number lat, .number lng =>
      -- typeof lat and typeof lng are number; the four range tests remain
      if lat.ltConst (-90) || lat.gtConst 90 || lng.ltConst (-180) || lng.gtConst 180 then
        some (.error invalidCoordinates, uvDataCache, rt)
      else
        let key := cacheKey lat lng
        match freshData (mapGet uvDataCache key) now₁ with
        | some data => some (.ok data, uvDataCache, rt)
        | none =>
            match makeNetworkRequest (fetchUVData lat lng) fuel rt with
            | none => none
            | some (.error error, rt1) => some (.error error, uvDataCache, rt1)
            | some (.ok data, rt1) =>
                let result : UVResponse P := { payload := data, lat := lat, lng := lng }
                some (.ok result,
                  mapSet uvDataCache key { data := result, timestamp := now₂ }, rt1)
  | _, _ =>
      -- typeof lat !== number or typeof lng !== number
      some (.error invalidCoordinates, uvDataCache, rt)

/-- A coordinate as the data model of the specification defines it: both
components are finite numbers, the latitude in [-90, 90] and the longitude in
[-180, 180]. -/
def validCoordinate : JSValue → JSValue → Bool
  | .number (.finite m k), .number (.finite n j) =>
      decide (-90 * 2 ^ k ≤ m) && decide (m ≤ 90 * 2 ^ k) &&
      decide (-180 * 2 ^ j ≤ n) && decide (n ≤ 180 * 2 ^ j)
  | _, _ => false

/-- The value of a latitude or longitude rounded to 4 decimal places, in units
of `10 ^ -4`, following the words of the specification: the nearest multiple of
`10 ^ -4`.  The specification names no rule for ties; they go away from zero
here, as in `toFixed`. -/
def rounded4 (m : Int) (k : Nat) : Int :=
  if m < 0 then -((nearestScaled 4 m.natAbs k : Nat) : Int) else (nearestScaled 4 m.natAbs k : Nat)

/-! ## Write queue -/

/-- The value a promise of the write queue is resolved with. -/
inductive Resolved (α : Type) where
  | undefined
  | null
  | value (result : α)
  deriving DecidableEq, Repr

/-- How a promise settles. -/
inductive Settlement (α : Type) where
  | resolve (value : Resolved α)
  | reject (error : JSError)
  deriving DecidableEq, Repr

/-- The promise a call of `writeQueue.add` returns: one that is settled
already, or the promise created at line 129, named by a number. -/
inductive AddResult (α : Type) where
  | settled (s : Settlement α)
  | created (promise : Nat)
  deriving DecidableEq, Repr

/-- An entry of `writeQueue.queue` (api.js line 130).  The pair `resolve`,
`reject` is the number of the promise it belongs to. -/
structure QueuedWrite (W α : Type) where
  operation : Operation W α
  promise : Nat
  key : String

/-- The object `writeQueue` (api.js lines 121-124), together with what the
JavaScript runtime holds for it: `running` is the activation of `process`
suspended at `await makeNetworkRequest(operation)` (line 143) with its local
variables, `settled` lists the calls of `resolve` and `reject` in order, and
`nextPromise` numbers the promises created by `add`. -/
structure WriteQueue (W α : Type) where
  queue : List (QueuedWrite W α)
  isProcessing : Bool
  pendingWrites : List String
  running : Option (QueuedWrite W α)
  settled : List (Nat × Settlement α)
  nextPromise : Nat

/-- The write queue as the module creates it. -/
def WriteQueue.initial (W α : Type) : WriteQueue W α :=
  { queue := [], isProcessing := false, pendingWrites := [], running := none,
    settled := [], nextPromise := 0 }

/-- The method `Set.prototype.add`. -/
def setAdd (s : List String) (key : String) : List String :=
  if key ∈ s then s else s ++ [key]

/-- The method `Set.prototype.delete`. -/
def setDelete (s : List String) (key : String) : List String :=
  s.filter (fun k => k ≠ key)

/-- The method `writeQueue.process` up to its first suspension (api.js lines
137-143): the guard, the flag and the `shift`.  The executor run it starts is
accounted for when it completes, in `WriteQueue.resume`. -/
def WriteQueue.process {W α : Type} (q : WriteQueue W α) : WriteQueue W α :=
  if q.isProcessing || q.queue.length == 0 then q
  else
    match q.queue with
    | [] => q
    | item :: rest => { q with isProcessing := true, queue := rest, running := some item }

/-- The method `writeQueue.add` (api.js lines 126-134). -/
def WriteQueue.add {W α : Type} (operation : Operation W α) (key : String)
    (q : WriteQueue W α) : AddResult α × WriteQueue W α :=
  if key ∈ q.pendingWrites then (.settled (.resolve .undefined), q)
  else
    let item : QueuedWrite W α := { operation := operation, promise := q.nextPromise, key := key }
    let q1 := { q with queue := q.queue ++ [item], nextPromise := q.nextPromise + 1 }
    let q2 := { q1 with pendingWrites := setAdd q1.pendingWrites key }
    (.created item.promise, q2.process)

/-- The classification in the `try`/`catch` of `process` (api.js lines
142-151): what the promise of the item is settled with. -/
def settlementOf {α : Type} : Except JSError α → Settlement α
  | .ok result => .resolve (.value result)
  | .error error =>
      if error.code = some "unavailable" then .resolve .null else .reject error

/-- The rest of `writeQueue.process` after its suspension (api.js lines
143-156): the executor run of the running item from start to end, the
settlement of its promise, and the `finally` block, which ends with the next
call of `process`.  Without a running item nothing happens. -/
def WriteQueue.resume {W α : Type} (fuel : Nat) (q : WriteQueue W α) (rt : Runtime W) :
    Option (WriteQueue W α × Runtime W) :=
  match q.running with
  | none => some (q, rt)
  | some item =>
      match makeNetworkRequest item.operation fuel (rt.log (Event.execute item.key)) with
      | none => none
      | some (r, rt1) =>
          let q1 := { q with settled := q.settled ++ [(item.promise, settlementOf r)] }
          let q2 := { q1 with pendingWrites := setDelete q1.pendingWrites item.key,
                              isProcessing := false, running := none }
          some (q2.process, rt1)

/-- The state of a promise created by `add`: the first call of `resolve` or
`reject` for it, if there has been one. -/
def WriteQueue.outcome {W α : Type} (q : WriteQueue W α) (promise : Nat) : Option (Settlement α) :=
  (q.settled.find? (fun p => p.1 == promise)).map (fun p => p.2)

/-- The writes that are enqueued or running, the running one first. -/
def WriteQueue.inFlight {W α : Type} (q : WriteQueue W α) : List (QueuedWrite W α) :=
  q.running.toList ++ q.queue

/-- The number of writes with the given key that are enqueued or running. -/
def WriteQueue.entries {W α : Type} (q : WriteQueue W α) (key : String) : Nat :=
  (q.inFlight.filter (fun item => item.key == key)).length

/-- The number of executor runs started for the given key in a trace. -/
def executions (key : String) (tr : List Event) : Nat := tr.count (Event.execute key)

/-- The pending set is the set of keys of the writes in flight, no key occurs
twice among them, and `isProcessing` is set exactly while a write is running;
an idle queue has nothing enqueued. -/
def WriteQueue.Inv {W α : Type} (q : WriteQueue W α) : Prop :=
  (q.inFlight.map (fun item => item.key)).Nodup ∧
  (∀ k, k ∈ q.pendingWrites ↔ k ∈ q.inFlight.map (fun item => item.key)) ∧
  q.isProcessing = q.running.isSome ∧
  (q.isProcessing = false → q.queue = [])

/-- Repeated completion of the running write: `n` calls of `resume`. -/
def WriteQueue.drain {W α : Type} (fuel : Nat) :
    Nat → WriteQueue W α → Runtime W → Option (WriteQueue W α × Runtime W)
  | 0, q, rt => some (q, rt)
  | n + 1, q, rt =>
      match q.resume fuel rt with
      | none => none
      | some (q1, rt1) => WriteQueue.drain fuel n q1 rt1

/-- No listener in the list throws when called with `online`. -/
def quiet (online : Bool) (ls : List Listener) : Bool :=
  ls.all (fun l => (l.throws online).isNone)

/-- The effects of one attempt of the executor: the transport is switched on
when the connection state is online, then the operation is invoked. -/
def attemptEvents (online : Bool) : List Event :=
  if online then [Event.enableNetwork, Event.invoke] else [Event.invoke]

/-- The effects of calling each listener of the list with `online`. -/
def notifications (online : Bool) (ls : List Listener) : List Event :=
  ls.map (fun l => Event.notify l.id online)

/-! ## Risk colour -/

/-- The comparison `x >= c` of a number with an integer constant `c`; every
comparison with NaN is false. -/
def JSNumber.geConst : JSNumber → Int → Bool
  | .nan, _ => false
  | .posInf, _ => true
  | .negInf, _ => false
  | .finite m k, c => decide (c * 2 ^ k ≤ m)

/-- The function `getRiskColor` (api.js lines 251-259) on a numeric argument,
for which `Number(uvIndex)` is the argument itself. -/
def getRiskColor (uvIndex : JSNumber) : String :=
  let num := uvIndex
  if num = JSNumber.nan then "#9E9E9E"
  else if num.ltConst 3 then "#4CAF50"
  else if num.ltConst 6 then "#FFC107"
  else if num.ltConst 8 then "#FF9800"
  else if num.ltConst 11 then "#F44336"
  else "#673AB7"

/-! ## History feed -/

/-- The field `change.type` of a Firestore document change. -/
inductive ChangeType where
  | added
  | modified
  | removed
  deriving DecidableEq, Repr

/-- A document change as `processChanges` reads it: its type, `change.doc.id`,
the fields of `change.doc.data()` other than the timestamp (none of them is
called `id` in the documents this module writes), `docData.timestamp?.toDate()`
in milliseconds when the server timestamp is there, and the value that
`new Date()` has when the change is processed. -/
structure Change (D : Type) where
  type : ChangeType
  id : String
  data : D
  timestamp : Option Int
  clock : Int
  deriving DecidableEq, Repr

/-- An element of the state `records` of `useUVHistory`. -/
structure UVRecord (D : Type) where
  id : String
  data : D
  timestamp : Int
  deriving DecidableEq, Repr

/-- The object `record` built at api.js lines 201-205. -/
def recordOf {D : Type} (change : Change D) : UVRecord D :=
  { id := change.id, data := change.data,
    timestamp := match change.timestamp with
      | some t => t
      | none => change.clock }

/-- The method `Array.prototype.findIndex`; `none` stands for -1. -/
def findIndex {β : Type} (p : β → Bool) : List β → Option Nat
  | [] => none
  | x :: xs => if p x then some 0 else (findIndex p xs).map (fun i => i + 1)

/-- The body of the `forEach` in `processChanges` (api.js lines 198-212). -/
def applyChange {D : Type} (newRecords : List (UVRecord D)) (change : Change D) :
    List (UVRecord D) :=
  match findIndex (fun r => r.id == change.id) newRecords with
  | some idx => newRecords.set idx (recordOf change)
  | none =>
      if change.type = ChangeType.added then newRecords ++ [recordOf change] else newRecords

/-- The order in which the comparator `(a, b) => b.timestamp - a.timestamp`
leaves `a` before `b`. -/
def newerFirst {D : Type} (a b : UVRecord D) : Prop := b.timestamp ≤ a.timestamp

instance {D : Type} : DecidableRel (newerFirst (D := D)) :=
  fun a b => inferInstanceAs (Decidable (b.timestamp ≤ a.timestamp))

/-- The updater that `processChanges` hands to `setRecords` (api.js lines
196-214), applied to the previous records and to the values of the change
buffer in insertion order.  `Array.prototype.sort` is stable, and the stable
sort of a list is unique; it is computed here by insertion. -/
def processChanges {D : Type} (prev : List (UVRecord D)) (changes : List (Change D)) :
    List (UVRecord D) :=
  let newRecords := changes.foldl applyChange prev
  newRecords.insertionSort newerFirst

instance {D : Type} : IsTotal (UVRecord D) newerFirst :=
  ⟨fun a b => le_total b.timestamp a.timestamp⟩

instance {D : Type} : IsTrans (UVRecord D) newerFirst :=
  ⟨fun _ _ _ hab hbc => le_trans hbc hab⟩

/-- Two pending local writes of one flush: no server timestamp yet, and the
clock shows the same millisecond for both. -/
def pendingPair : List (Change String) :=
  [⟨ChangeType.added, "a", "uv 3", none, 1000⟩, ⟨ChangeType.added, "b", "uv 7", none, 1000⟩]

/-- A visible list of two records. -/
def shownRecords : List (UVRecord String) :=
  [⟨"a", "uv 3", 2000⟩, ⟨"b", "uv 7", 1000⟩]

/-- A buffer of three changes: an update of `b`, a new record `c`, and a
modification of a record `d` that is not in the list. -/
def bufferedChanges : List (Change String) :=
  [⟨ChangeType.modified, "b", "uv 8", some 3000, 0⟩, ⟨ChangeType.added, "c", "uv 1", some 1500, 0⟩,
   ⟨ChangeType.modified, "d", "uv 2", some 500, 0⟩]

/-! ## Observation of the write queue -/

/-- What can be observed of the write queue: a write has been pushed on the
queue, its executor run has been started, its promise has been settled. -/
inductive QueueEvent where
  | enqueued (promise : Nat) (key : String)
  | started (promise : Nat) (key : String)
  | settled (promise : Nat) (key : String)
  deriving DecidableEq, Repr

/-- The event of a call of `process` on the queue `q`: the start of the head of
the queue when the guard of line 137 lets it through. -/
def WriteQueue.startEvents {W α : Type} (q : WriteQueue W α) : List QueueEvent :=
  if q.isProcessing || q.queue.length == 0 then []
  else
    match q.queue with
    | [] => []
    | item :: _ => [QueueEvent.started item.promise item.key]

/-- The events of a call `add(operation, key)` on the queue `q`. -/
def WriteQueue.addEvents {W α : Type} (operation : Operation W α) (key : String)
    (q : WriteQueue W α) : List QueueEvent :=
  if key ∈ q.pendingWrites then []
  else
    let item : QueuedWrite W α := { operation := operation, promise := q.nextPromise, key := key }
    let q1 := { q with queue := q.queue ++ [item], nextPromise := q.nextPromise + 1 }
    let q2 := { q1 with pendingWrites := setAdd q1.pendingWrites key }
    QueueEvent.enqueued item.promise key :: q2.startEvents

/-- The queue as the `finally` block of `process` leaves it before it calls
`process` again (api.js lines 153-154), the promise of the running write being
settled with `s`. -/
def WriteQueue.finish {W α : Type} (q : WriteQueue W α) (item : QueuedWrite W α)
    (s : Settlement α) : WriteQueue W α :=
  { q with settled := q.settled ++ [(item.promise, s)],
           pendingWrites := setDelete q.pendingWrites item.key,
           isProcessing := false, running := none }

/-- The events of the completion of the running write of `q`. -/
def WriteQueue.resumeEvents {W α : Type} (q : WriteQueue W α) : List QueueEvent :=
  match q.running with
  | none => []
  | some item =>
      QueueEvent.settled item.promise item.key ::
        ({ q with isProcessing := false, running := none } : WriteQueue W α).startEvents

/-- The states the write queue reaches from the one the module creates, by
calls of `add` and completions of the running write in any order and in any
state of the runtime, with the events observed on the way. -/
inductive Reachable {W α : Type} : WriteQueue W α → List QueueEvent → Prop where
  | initial : Reachable (WriteQueue.initial W α) []
  | add {q : WriteQueue W α} {h : List QueueEvent} (operation : Operation W α) (key : String) :
      Reachable q h → Reachable (q.add operation key).2 (h ++ q.addEvents operation key)
  | resume {q q1 : WriteQueue W α} {h : List QueueEvent} (fuel : Nat) (rt rt1 : Runtime W) :
      Reachable q h → q.resume fuel rt = some (q1, rt1) → Reachable q1 (h ++ q.resumeEvents)

/-- The write that is started and not settled after the events `h`, starting
with `cur`; `none` when a write is started while another one is running, or
settled without running. -/
def openWrite : Option Nat → List QueueEvent → Option (Option Nat)
  | cur, [] => some cur
  | cur, QueueEvent.enqueued _ _ :: h => openWrite cur h
  | none, QueueEvent.started p _ :: h => openWrite (some p) h
  | some _, QueueEvent.started _ _ :: _ => none
  | some p, QueueEvent.settled p1 _ :: h => if p = p1 then openWrite none h else none
  | none, QueueEvent.settled _ _ :: _ => none

/-- The promises of the writes pushed on the queue, in order. -/
def enqueuedOf : List QueueEvent → List Nat
  | [] => []
  | QueueEvent.enqueued p _ :: h => p :: enqueuedOf h
  | _ :: h => enqueuedOf h

/-- The promises of the writes started, in order. -/
def startedOf : List QueueEvent → List Nat
  | [] => []
  | QueueEvent.started p _ :: h => p :: startedOf h
  | _ :: h => startedOf h

/-! ## Concrete operations and listeners used as instances -/

/-- An operation that fails on its first two calls and succeeds afterwards; the
world counts its calls. -/
def failsTwice : Operation Nat String := fun _ n =>
  if n < 2 then (.error ⟨"transport failure", none⟩, n + 1) else (.ok "done", n + 1)

/-- An operation that fails on every call; the world counts its calls. -/
def alwaysFails : Operation Nat String := fun _ n =>
  (.error ⟨"transport failure", none⟩, n + 1)

/-- A fetch that succeeds with a fixed payload; the world counts its calls. -/
def fetchStub : JSNumber → JSNumber → Operation Nat String := fun _ _ _ n =>
  (.ok "uv", n + 1)

/-- The double nearest to 37.7749 (San Francisco, the latitude of the
specification). -/
def sfLat : JSNumber := .finite 332271534304605 43

/-- The double nearest to -122.4194. -/
def sfLng : JSNumber := .finite (-538406215061445) 42

/-- The runtime of a freshly loaded module, with no listener registered. -/
def freshRuntime : Runtime Nat := ⟨initialConnection [], 0, []⟩

/-- A write that succeeds with a document id; the world counts its calls. -/
def writeStub : Operation Nat String := fun _ n => (.ok "doc-1", n + 1)

/-- A write that fails on every call with the Firestore code `unavailable`. -/
def unavailableWrite : Operation Nat String := fun _ n =>
  (.error ⟨"store unavailable", some "unavailable"⟩, n + 1)

/-- A write that fails on every call with the Firestore code
`permission-denied`. -/
def deniedWrite : Operation Nat String := fun _ n =>
  (.error ⟨"missing permissions", some "permission-denied"⟩, n + 1)

/-- The first of two operations on a world that counts the calls of each: it
fails on every call. -/
def firstAlwaysFails : Operation (Nat × Nat) String := fun _ w =>
  (.error ⟨"transport failure", none⟩, (w.1 + 1, w.2))

/-- The first of two operations on a world that counts the calls of each: it
fails on its first two calls and succeeds afterwards. -/
def firstFailsTwice : Operation (Nat × Nat) String := fun _ w =>
  (if w.1 < 2 then .error ⟨"transport failure", none⟩ else .ok "done", (w.1 + 1, w.2))

/-- The second of two operations on a world that counts the calls of each: it
fails on every call. -/
def secondAlwaysFails : Operation (Nat × Nat) String := fun _ w =>
  (.error ⟨"transport failure", none⟩, (w.1, w.2 + 1))

/-- Two runs on a freshly loaded module, both about to start. -/
def twoRuns : Run String × Run String × Runtime (Nat × Nat) :=
  (Run.ready, Run.ready, ⟨initialConnection [], (0, 0), []⟩)

/-- Both runs start before either operation has settled, as with the calls
that `Promise.all` makes in LocationMapScreen.js; then each failure is handled
in turn. -/
def bothStart : List Turn := [Turn.first, Turn.second, Turn.first, Turn.second]

/-- After `bothStart`, the first run is resumed until it returns, then the
second. -/
def bothFinish : List Turn :=
  [Turn.first, Turn.first, Turn.first, Turn.second, Turn.second, Turn.second]

/-- A listener that returns normally. -/
def calmListener (id : Nat) : Listener := { id := id, throws := fun _ => none }

/-- A listener that throws whenever it is called. -/
def throwingListener (id : Nat) : Listener :=
  { id := id, throws := fun _ => some ⟨"listener failed", none⟩ }

/-- The queue of a freshly loaded module after `add(writeStub, k1)` and
`add(writeStub, k2)`: the first write is running, the second one waits. -/
def twoWrites : WriteQueue Nat String :=
  (((WriteQueue.initial Nat String).add writeStub "k1").2.add writeStub "k2").2

/-- The queue `twoWrites` after the first write has completed: its promise is
resolved with the document id, its key is no longer pending, and the second
write is running. -/
def afterFirstWrite : WriteQueue Nat String :=
  { queue := [], isProcessing := true, pendingWrites := ["k2"],
    running := some ⟨writeStub, 1, "k2"⟩,
    settled := [(0, Settlement.resolve (Resolved.value "doc-1"))], nextPromise := 2 }

/-! ## Lemmas on traces and listeners -/

theorem delays_append (a b : List Event) : delays (a ++ b) = delays a ++ delays b := by
  induction a with
  | nil => rfl
  | cons e a ih => cases e <;> simp [delays, ih]

theorem notified_append (v : Bool) (a b : List Event) :
    notified v (a ++ b) = notified v a ++ notified v b := by
  induction a with
  | nil => rfl
  | cons e a ih =>
    cases e <;> simp [notified, ih]
    split <;> simp

theorem invocations_append (a b : List Event) :
    invocations (a ++ b) = invocations a + invocations b := by
  simp [invocations, List.count_append]

theorem executions_append (key : String) (a b : List Event) :
    executions key (a ++ b) = executions key a + executions key b := by
  simp [executions, List.count_append]

theorem delays_notifications (v : Bool) (ls : List Listener) :
    delays (notifications v ls) = [] := by
  induction ls with
  | nil => rfl
  | cons l ls ih => simpa [notifications, delays] using ih

theorem invocations_notifications (v : Bool) (ls : List Listener) :
    invocations (notifications v ls) = 0 := by
  induction ls with
  | nil => rfl
  | cons l ls ih =>
    simp only [notifications, invocations] at ih ⊢
    simp [List.count_cons, ih]

theorem executions_notifications (key : String) (v : Bool) (ls : List Listener) :
    executions key (notifications v ls) = 0 := by
  induction ls with
  | nil => rfl
  | cons l ls ih =>
    simp only [notifications, executions] at ih ⊢
    simp [List.count_cons, ih]

theorem notified_notifications (v : Bool) (ls : List Listener) :
    notified v (notifications v ls) = ls.map (fun l => l.id) := by
  induction ls with
  | nil => rfl
  | cons l ls ih =>
    simp only [notifications] at ih
    simp [notifications, notified, ih]

/-- The listeners that `forEach` reaches are an initial segment of the set. -/
theorem notifyListeners_trace (v : Bool) (ls : List Listener) (tr : List Event) :
    ∃ k, (notifyListeners v ls tr).2 = tr ++ notifications v (ls.take k) := by
  induction ls generalizing tr with
  | nil => exact ⟨0, by simp [notifyListeners, notifications]⟩
  | cons l ls ih =>
    cases h : l.throws v with
    | some e => exact ⟨1, by simp [notifyListeners, h, notifications]⟩
    | none =>
      obtain ⟨k, hk⟩ := ih (tr ++ [Event.notify l.id v])
      exact ⟨k + 1, by simp [notifyListeners, h, hk, notifications]⟩

theorem notifyListeners_quiet (v : Bool) (ls : List Listener) (tr : List Event)
    (h : quiet v ls = true) :
    notifyListeners v ls tr = (none, tr ++ notifications v ls) := by
  induction ls generalizing tr with
  | nil => simp [notifyListeners, notifications]
  | cons l ls ih =>
    simp only [quiet, List.all_cons, Bool.and_eq_true] at h
    have hl : l.throws v = none := by
      cases hh : l.throws v with
      | none => rfl
      | some e => simp [hh] at h
    have := ih (tr ++ [Event.notify l.id v]) (by simpa [quiet] using h.2)
    simp [notifyListeners, hl, this, notifications]

theorem notifyListeners_throw (v : Bool) (pre : List Listener) (l : Listener)
    (post : List Listener) (e : JSError) (tr : List Event)
    (hpre : quiet v pre = true) (hl : l.throws v = some e) :
    notifyListeners v (pre ++ l :: post) tr = (some e, tr ++ notifications v (pre ++ [l])) := by
  induction pre generalizing tr with
  | nil => simp [notifyListeners, hl, notifications]
  | cons p pre ih =>
    simp only [quiet, List.all_cons, Bool.and_eq_true] at hpre
    have hp : p.throws v = none := by
      cases hh : p.throws v with
      | none => rfl
      | some e => simp [hh] at hpre
    have := ih (tr ++ [Event.notify p.id v]) (by simpa [quiet] using hpre.2)
    have step : notifyListeners v (p :: (pre ++ l :: post)) tr
        = notifyListeners v (pre ++ l :: post) (tr ++ [Event.notify p.id v]) := by
      simp [notifyListeners, hp]
    rw [List.cons_append, step, this]
    simp [notifications]

/-! ## The executor -/

/-- One failed attempt that is not terminal: the counter is incremented, the
executor sleeps for `2 ^ retryAttempts * 100` ms with the incremented counter
and runs again. -/
theorem makeNetworkRequest_retry {W α : Type} (op : Operation W α) (n k m : Nat)
    (ls : List Listener) (w w1 : W) (tr : List Event) (e : JSError)
    (h : op ⟨true, k, m, ls⟩ w = (.error e, w1)) (hlt : k + 1 < m) :
    makeNetworkRequest op (n + 1) ⟨⟨true, k, m, ls⟩, w, tr⟩ =
      makeNetworkRequest op n
        ⟨⟨true, k + 1, m, ls⟩, w1,
          tr ++ [Event.enableNetwork, Event.invoke, Event.sleep (2 ^ (k + 1) * 100)]⟩ := by
  have hnot : ¬ (m ≤ k + 1) := by omega
  simp [makeNetworkRequest, Runtime.log, h, hnot]

/-- A successful attempt returns the result of the operation. -/
theorem makeNetworkRequest_success {W α : Type} (op : Operation W α) (n k m : Nat)
    (ls : List Listener) (w w1 : W) (tr : List Event) (v : α)
    (h : op ⟨true, k, m, ls⟩ w = (.ok v, w1)) :
    makeNetworkRequest op (n + 1) ⟨⟨true, k, m, ls⟩, w, tr⟩ =
      some (.ok v, ⟨⟨true, k, m, ls⟩, w1, tr ++ [Event.enableNetwork, Event.invoke]⟩) := by
  simp [makeNetworkRequest, Runtime.log, h]

/-- A failed attempt that brings the counter to `maxRetries` is terminal. -/
theorem makeNetworkRequest_terminal {W α : Type} (op : Operation W α) (n k m : Nat)
    (ls : List Listener) (w w1 : W) (tr : List Event) (e : JSError)
    (h : op ⟨true, k, m, ls⟩ w = (.error e, w1)) (hge : m ≤ k + 1) :
    makeNetworkRequest op (n + 1) ⟨⟨true, k, m, ls⟩, w, tr⟩ =
      match notifyListeners false ls (tr ++ [Event.enableNetwork, Event.invoke]) with
      | (some thrown, tr1) => some (.error thrown, ⟨⟨false, k + 1, m, ls⟩, w1, tr1⟩)
      | (none, tr1) =>
          some (.error e, ⟨⟨false, k + 1, m, ls⟩, w1, tr1 ++ [Event.disableNetwork]⟩) := by
  simp only [makeNetworkRequest, Runtime.log, h, setOnlineStatus, if_true, ge_iff_le, hge]
  simp only [List.append_assoc, List.singleton_append, Bool.false_eq_true, if_false]
  rcases hn : notifyListeners false ls (tr ++ [Event.enableNetwork, Event.invoke])
    with ⟨_ | thrown, tr1⟩ <;> simp_all

/-- One activation of `makeNetworkRequest`, in any connection state. -/
theorem makeNetworkRequest_step {W α : Type} (op : Operation W α) (n : Nat) (onl : Bool)
    (k m : Nat) (ls : List Listener) (w : W) (tr : List Event) :
    makeNetworkRequest op (n + 1) ⟨⟨onl, k, m, ls⟩, w, tr⟩ =
      match op ⟨onl, k, m, ls⟩ w with
      | (.ok v, w1) => some (.ok v, ⟨⟨onl, k, m, ls⟩, w1, tr ++ attemptEvents onl⟩)
      | (.error e, w1) =>
          if m ≤ k + 1 then
            match notifyListeners false ls (tr ++ attemptEvents onl) with
            | (some thrown, tr1) => some (.error thrown, ⟨⟨false, k + 1, m, ls⟩, w1, tr1⟩)
            | (none, tr1) =>
                some (.error e, ⟨⟨false, k + 1, m, ls⟩, w1, tr1 ++ [Event.disableNetwork]⟩)
          else
            makeNetworkRequest op n
              ⟨⟨onl, k + 1, m, ls⟩, w1,
                tr ++ attemptEvents onl ++ [Event.sleep (2 ^ (k + 1) * 100)]⟩ := by
  cases onl <;> rcases h : op ⟨_, k, m, ls⟩ w with ⟨e | v, w1⟩ <;>
    simp only [makeNetworkRequest, Runtime.log, attemptEvents, setOnlineStatus,
      Bool.false_eq_true, ↓reduceIte, h, ge_iff_le, List.append_assoc, List.singleton_append]
  all_goals
    split
    · rcases hn : notifyListeners false ls _ with ⟨_ | thrown, tr1⟩ <;> simp
    · simp

/-- The function `makeNetworkRequest` is the run whose steps follow one
another with no step of another run in between: one activation is the step to
the await of the operation followed by the step that handles its outcome, and
the timer leads to the next activation. -/
theorem makeNetworkRequest_by_steps {W α : Type} (op : Operation W α) (n : Nat)
    (rt : Runtime W) :
    makeNetworkRequest op (n + 1) rt =
      match Run.step op (Run.step op Run.ready rt).1 (Run.step op Run.ready rt).2 with
      | (Run.returned r, rt2) => some (r, rt2)
      | (Run.sleeping, rt2) => makeNetworkRequest op n (Run.step op Run.sleeping rt2).2
      | (Run.ready, _) => none
      | (Run.awaiting _, _) => none := by
  obtain ⟨⟨onl, k, m, ls⟩, w, tr⟩ := rt
  rw [makeNetworkRequest_step]
  cases onl <;> rcases hop : op ⟨_, k, m, ls⟩ w with ⟨e | v, w1⟩ <;>
    simp only [Run.step, Runtime.log, attemptEvents, setOnlineStatus, Bool.false_eq_true,
      ↓reduceIte, hop, ge_iff_le, List.append_assoc, List.singleton_append, List.cons_append,
      List.nil_append]
  all_goals
    split
    · rcases hn : notifyListeners false ls _ with ⟨_ | thrown, tr1⟩ <;> simp
    · simp

/-- Every result of `makeNetworkRequest` is the result of a run that takes
all its steps while no other run takes one: in the schedule of the two runs
only the first run moves, and the second is left where it stands. -/
theorem makeNetworkRequest_alone {W α : Type} (op second : Operation W α) (fuel : Nat)
    (rt rt1 : Runtime W) (b : Run α) (r : Except JSError α)
    (h : makeNetworkRequest op fuel rt = some (r, rt1)) :
    ∃ n, interleave op second (List.replicate n Turn.first) (Run.ready, b, rt)
      = (Run.returned r, b, rt1) := by
  induction fuel generalizing rt with
  | zero => simp [makeNetworkRequest] at h
  | succ n ih =>
    rw [makeNetworkRequest_by_steps] at h
    rcases hs : Run.step op (Run.step op Run.ready rt).1 (Run.step op Run.ready rt).2
      with ⟨_ | _ | _ | r2, rt2⟩ <;> rw [hs] at h <;> simp only at h
    · exact absurd h (by simp)
    · exact absurd h (by simp)
    · obtain ⟨m, hm⟩ := ih _ h
      refine ⟨m + 3, ?_⟩
      have hsleep : Run.step op Run.sleeping rt2 = (Run.ready, rt2) := rfl
      rw [hsleep] at hm
      simp only [List.replicate_succ, interleave, hs, hsleep]
      exact hm
    · simp only [Option.some.injEq, Prod.mk.injEq] at h
      obtain ⟨rfl, rfl⟩ := h
      exact ⟨2, by simp only [List.replicate_succ, List.replicate_zero, interleave, hs]⟩

/-- Claim C9, amended: `setOnlineStatus(online)` sets `isOnline`, resets
`retryAttempts` when `online` is true, and calls the registered listeners in
registration order with the new value.  When no listener throws, every listener
is called and the method does not throw.  When a listener throws, its exception
leaves `setOnlineStatus` and the listeners registered after it are not called:
there is no isolation of listener failures. -/
theorem setOnlineStatus_fanout {W : Type} (online : Bool) (rt : Runtime W) :
    (setOnlineStatus online rt).2.conn.isOnline = online ∧
    (setOnlineStatus online rt).2.conn.retryAttempts
      = (if online then 0 else rt.conn.retryAttempts) ∧
    (quiet online rt.conn.listeners = true →
      (setOnlineStatus online rt).1 = none ∧
      (setOnlineStatus online rt).2.trace = rt.trace ++ notifications online rt.conn.listeners) ∧
    (∀ (pre post : List Listener) (l : Listener) (e : JSError),
      rt.conn.listeners = pre ++ l :: post → quiet online pre = true → l.throws online = some e →
      (setOnlineStatus online rt).1 = some e ∧
      (setOnlineStatus online rt).2.trace = rt.trace ++ notifications online (pre ++ [l])) := by
  refine ⟨rfl, rfl, ?_, ?_⟩
  · intro hq
    simp [setOnlineStatus, notifyListeners_quiet online _ _ hq]
  · intro pre post l e hls hq hl
    simp [setOnlineStatus, hls, notifyListeners_throw online pre l post e _ hq hl]

/-- Instance of `setOnlineStatus_fanout`: two calm listeners are both called
with `false`. -/
theorem setOnlineStatus_fanout_witness :
    quiet false [calmListener 1, calmListener 2] = true ∧
    (setOnlineStatus false
        (⟨initialConnection [calmListener 1, calmListener 2], 0, []⟩ : Runtime Nat)).1 = none ∧
    (setOnlineStatus false
        (⟨initialConnection [calmListener 1, calmListener 2], 0, []⟩ : Runtime Nat)).2.trace
      = [Event.notify 1 false, Event.notify 2 false] :=
  ⟨by decide,
    (setOnlineStatus_fanout false
      (⟨initialConnection [calmListener 1, calmListener 2], 0, []⟩ : Runtime Nat)).2.2.1
      (by decide)⟩

/-- Claim C9 fails as stated: with a throwing listener registered before a calm
one, `setOnlineStatus(false)` throws and the calm listener is never called. -/
theorem setOnlineStatus_not_isolated :
    (setOnlineStatus false
        (⟨initialConnection [throwingListener 1, calmListener 2], 0, []⟩ : Runtime Nat)).1
      = some ⟨"listener failed", none⟩ ∧
    notified false (setOnlineStatus false
        (⟨initialConnection [throwingListener 1, calmListener 2], 0, []⟩ : Runtime Nat)).2.trace
      = [1] ∧
    ¬ ((setOnlineStatus false
          (⟨initialConnection [throwingListener 1, calmListener 2], 0, []⟩ : Runtime Nat)).1 = none ∧
        2 ∈ notified false (setOnlineStatus false
          (⟨initialConnection [throwingListener 1, calmListener 2], 0, []⟩ : Runtime Nat)).2.trace) := by
  decide

/-- Claim C2, amended: in a run of `makeNetworkRequest` that no other executor
run overlaps, started from the initial connection state, an operation that
fails on its first two attempts and succeeds on its third makes the run return
the result of the third attempt; the run leaves `retryAttempts` at 2, not at
0, and a later call of `setOnlineStatus(true)` puts the counter back to 0.
The last part states the condition on the run as a schedule: whatever second
run shares the runtime, the result is that of the schedule in which only this
run takes steps. -/
theorem makeNetworkRequest_third_attempt {W α : Type} (op : Operation W α)
    (ls : List Listener) (w0 w1 w2 w3 : W) (tr : List Event) (e1 e2 : JSError) (v : α)
    (fuel : Nat) (hfuel : 3 ≤ fuel)
    (h1 : op (initialConnection ls) w0 = (.error e1, w1))
    (h2 : op { initialConnection ls with retryAttempts := 1 } w1 = (.error e2, w2))
    (h3 : op { initialConnection ls with retryAttempts := 2 } w2 = (.ok v, w3)) :
    makeNetworkRequest op fuel ⟨initialConnection ls, w0, tr⟩ =
      some (.ok v,
        ⟨{ initialConnection ls with retryAttempts := 2 }, w3,
          tr ++ [Event.enableNetwork, Event.invoke, Event.sleep 200,
                 Event.enableNetwork, Event.invoke, Event.sleep 400,
                 Event.enableNetwork, Event.invoke]⟩) ∧
    (setOnlineStatus true
      (⟨{ initialConnection ls with retryAttempts := 2 }, w3, tr⟩ : Runtime W)).2.conn.retryAttempts
      = 0 ∧
    (∀ (second : Operation W α) (b : Run α), ∃ n,
      interleave op second (List.replicate n Turn.first)
          (Run.ready, b, ⟨initialConnection ls, w0, tr⟩)
        = (Run.returned (.ok v), b,
            ⟨{ initialConnection ls with retryAttempts := 2 }, w3,
              tr ++ [Event.enableNetwork, Event.invoke, Event.sleep 200,
                     Event.enableNetwork, Event.invoke, Event.sleep 400,
                     Event.enableNetwork, Event.invoke]⟩)) := by
  have hrun : makeNetworkRequest op fuel ⟨initialConnection ls, w0, tr⟩ =
      some (.ok v,
        ⟨{ initialConnection ls with retryAttempts := 2 }, w3,
          tr ++ [Event.enableNetwork, Event.invoke, Event.sleep 200,
                 Event.enableNetwork, Event.invoke, Event.sleep 400,
                 Event.enableNetwork, Event.invoke]⟩) := by
    obtain ⟨n, rfl⟩ : ∃ n, fuel = n + 3 := ⟨fuel - 3, by omega⟩
    simp only [initialConnection] at h1 h2 h3 ⊢
    rw [makeNetworkRequest_retry op (n + 2) 0 3 ls w0 w1 tr e1 h1 (by decide)]
    rw [makeNetworkRequest_retry op (n + 1) 1 3 ls w1 w2 _ e2 h2 (by decide)]
    rw [makeNetworkRequest_success op n 2 3 ls w2 w3 _ v h3]
    simp
  exact ⟨hrun, rfl, fun second b => makeNetworkRequest_alone op second fuel _ _ b _ hrun⟩

/-- Instance of `makeNetworkRequest_third_attempt` at the operation
`failsTwice`. -/
theorem makeNetworkRequest_third_attempt_witness :
    makeNetworkRequest failsTwice 3 ⟨initialConnection [], 0, []⟩ =
      some (.ok "done",
        ⟨{ initialConnection [] with retryAttempts := 2 }, 3,
          [] ++ [Event.enableNetwork, Event.invoke, Event.sleep 200,
                 Event.enableNetwork, Event.invoke, Event.sleep 400,
                 Event.enableNetwork, Event.invoke]⟩) ∧
    (setOnlineStatus true
      (⟨{ initialConnection [] with retryAttempts := 2 }, 3, []⟩ : Runtime Nat)).2.conn.retryAttempts
      = 0 :=
  ⟨(makeNetworkRequest_third_attempt failsTwice [] 0 1 2 3 []
      ⟨"transport failure", none⟩ ⟨"transport failure", none⟩ "done" 3 (by decide)
      rfl rfl rfl).1,
   (makeNetworkRequest_third_attempt failsTwice [] 0 1 2 3 []
      ⟨"transport failure", none⟩ ⟨"transport failure", none⟩ "done" 3 (by decide)
      rfl rfl rfl).2.1⟩

/-- Claim C2 fails as stated.  In a run that nothing overlaps, `failsTwice`
fails on the first two attempts and succeeds on the third, the run returns
that result, and `retryAttempts` is 2 afterwards, not 0.  In a run that another
run overlaps, the shared counter is also incremented by the failures of the
other run: both runs start in the initial connection state, the operation of
the first one would succeed on its third call, but its second failure already
brings the counter to 3 and is terminal, so the run returns that failure after
two invocations. -/
theorem makeNetworkRequest_counter_not_reset :
    (failsTwice (initialConnection []) 0).1 = .error ⟨"transport failure", none⟩ ∧
    (failsTwice { initialConnection [] with retryAttempts := 1 } 1).1
      = .error ⟨"transport failure", none⟩ ∧
    (failsTwice { initialConnection [] with retryAttempts := 2 } 2).1 = .ok "done" ∧
    (makeNetworkRequest failsTwice 3 ⟨initialConnection [], 0, []⟩).map
        (fun r => (r.1, r.2.conn.retryAttempts)) = some (.ok "done", 2) ∧
    (makeNetworkRequest failsTwice 3 ⟨initialConnection [], 0, []⟩).map
        (fun r => r.2.conn.retryAttempts) ≠ some 0 ∧
    (fun s : Run String × Run String × Runtime (Nat × Nat) =>
        (s.1, s.2.1, s.2.2.conn.isOnline, s.2.2.conn.retryAttempts))
      (interleave firstFailsTwice secondAlwaysFails [Turn.first, Turn.second] twoRuns)
      = (Run.awaiting (.error ⟨"transport failure", none⟩),
         Run.awaiting (.error ⟨"transport failure", none⟩), true, 0) ∧
    (fun s : Run String × Run String × Runtime (Nat × Nat) =>
        (s.1, s.2.2.conn.retryAttempts, s.2.2.world))
      (interleave firstFailsTwice secondAlwaysFails (bothStart ++ bothFinish) twoRuns)
      = (Run.returned (.error ⟨"transport failure", none⟩), 4, (2, 2)) ∧
    (firstFailsTwice (initialConnection []) (2, 2)).1 = .ok "done" := by
  decide

/-- Claim C3, amended: in a run of `makeNetworkRequest` that no other executor
run overlaps, started from the initial connection state, an operation that
fails on its first three attempts (in particular one that fails on every
attempt) makes the run terminate after exactly `maxRetries` = 3 invocations,
with `isOnline = false` and `retryAttempts = maxRetries` on return.  Provided
no registered listener throws when called with `false`, the run raises the
unmodified failure of the last attempt, every listener has been called with
`false`, and the transport is switched off afterwards.  The last part states
the condition on the run as a schedule: whatever second run shares the
runtime, the result is that of the schedule in which only this run takes
steps. -/
theorem makeNetworkRequest_exhausted {W α : Type} (op : Operation W α)
    (ls : List Listener) (w0 w1 w2 w3 : W) (tr : List Event) (e1 e2 e3 : JSError)
    (fuel : Nat) (hfuel : 3 ≤ fuel)
    (h1 : op (initialConnection ls) w0 = (.error e1, w1))
    (h2 : op { initialConnection ls with retryAttempts := 1 } w1 = (.error e2, w2))
    (h3 : op { initialConnection ls with retryAttempts := 2 } w2 = (.error e3, w3)) :
    (makeNetworkRequest op fuel ⟨initialConnection ls, w0, tr⟩).map
        (fun r => (r.1.toBool, invocations r.2.trace, delays r.2.trace, r.2.conn.isOnline,
          r.2.conn.retryAttempts, r.2.conn.maxRetries, r.2.world))
      = some (false, invocations tr + 3, delays tr ++ [200, 400], false, 3, 3, w3) ∧
    (quiet false ls = true →
      makeNetworkRequest op fuel ⟨initialConnection ls, w0, tr⟩ =
        some (.error e3,
          ⟨{ initialConnection ls with isOnline := false, retryAttempts := 3 }, w3,
            tr ++ [Event.enableNetwork, Event.invoke, Event.sleep 200,
                   Event.enableNetwork, Event.invoke, Event.sleep 400,
                   Event.enableNetwork, Event.invoke]
               ++ notifications false ls ++ [Event.disableNetwork]⟩)) ∧
    (quiet false ls = true →
      ∀ (second : Operation W α) (b : Run α), ∃ n,
        interleave op second (List.replicate n Turn.first)
            (Run.ready, b, ⟨initialConnection ls, w0, tr⟩)
          = (Run.returned (.error e3), b,
              ⟨{ initialConnection ls with isOnline := false, retryAttempts := 3 }, w3,
                tr ++ [Event.enableNetwork, Event.invoke, Event.sleep 200,
                       Event.enableNetwork, Event.invoke, Event.sleep 400,
                       Event.enableNetwork, Event.invoke]
                   ++ notifications false ls ++ [Event.disableNetwork]⟩)) := by
  suffices hmain :
      (makeNetworkRequest op fuel ⟨initialConnection ls, w0, tr⟩).map
          (fun r => (r.1.toBool, invocations r.2.trace, delays r.2.trace, r.2.conn.isOnline,
            r.2.conn.retryAttempts, r.2.conn.maxRetries, r.2.world))
        = some (false, invocations tr + 3, delays tr ++ [200, 400], false, 3, 3, w3) ∧
      (quiet false ls = true →
        makeNetworkRequest op fuel ⟨initialConnection ls, w0, tr⟩ =
          some (.error e3,
            ⟨{ initialConnection ls with isOnline := false, retryAttempts := 3 }, w3,
              tr ++ [Event.enableNetwork, Event.invoke, Event.sleep 200,
                     Event.enableNetwork, Event.invoke, Event.sleep 400,
                     Event.enableNetwork, Event.invoke]
                 ++ notifications false ls ++ [Event.disableNetwork]⟩)) from
    ⟨hmain.1, hmain.2, fun hq second b =>
      makeNetworkRequest_alone op second fuel _ _ b _ (hmain.2 hq)⟩
  obtain ⟨n, rfl⟩ : ∃ n, fuel = n + 3 := ⟨fuel - 3, by omega⟩
  simp only [initialConnection] at h1 h2 h3 ⊢
  rw [makeNetworkRequest_retry op (n + 2) 0 3 ls w0 w1 tr e1 h1 (by decide)]
  rw [makeNetworkRequest_retry op (n + 1) 1 3 ls w1 w2 _ e2 h2 (by decide)]
  rw [makeNetworkRequest_terminal op n 2 3 ls w2 w3 _ e3 h3 (by decide)]
  constructor
  · generalize htr : tr ++ [Event.enableNetwork, Event.invoke, Event.sleep (2 ^ (0 + 1) * 100)]
        ++ [Event.enableNetwork, Event.invoke, Event.sleep (2 ^ (1 + 1) * 100)]
        ++ [Event.enableNetwork, Event.invoke] = tr0
    obtain ⟨k, hk⟩ := notifyListeners_trace false ls tr0
    rcases hn : notifyListeners false ls tr0 with ⟨_ | thrown, tr1⟩
    all_goals
      rw [hn] at hk
      simp only at hk
      subst hk
      subst htr
      have hz := invocations_notifications false (ls.take k)
      simp only [invocations] at hz
      simp [Except.toBool, delays_append, delays_notifications, invocations, delays, hz]
  · intro hq
    rw [notifyListeners_quiet false ls _ hq]
    simp

/-- Instance of `makeNetworkRequest_exhausted` at the operation `alwaysFails`
with two calm listeners registered. -/
theorem makeNetworkRequest_exhausted_witness :
    quiet false [calmListener 1, calmListener 2] = true ∧
    makeNetworkRequest alwaysFails 3 ⟨initialConnection [calmListener 1, calmListener 2], 0, []⟩ =
      some (.error ⟨"transport failure", none⟩,
        ⟨{ initialConnection [calmListener 1, calmListener 2] with
              isOnline := false, retryAttempts := 3 }, 3,
          [] ++ [Event.enableNetwork, Event.invoke, Event.sleep 200,
                 Event.enableNetwork, Event.invoke, Event.sleep 400,
                 Event.enableNetwork, Event.invoke]
             ++ notifications false [calmListener 1, calmListener 2]
             ++ [Event.disableNetwork]⟩) :=
  ⟨by decide,
    (makeNetworkRequest_exhausted alwaysFails [calmListener 1, calmListener 2] 0 1 2 3 []
      ⟨"transport failure", none⟩ ⟨"transport failure", none⟩ ⟨"transport failure", none⟩
      3 (by decide) rfl rfl rfl).2.1 (by decide)⟩

/-- Claim C3 fails as stated.  When a registered listener throws, the
exception of the listener, not the failure of the operation, is raised to the
caller, the listener registered after it is never called with `false`, and the
transport is not switched off.  When two runs whose operations always fail
overlap, both starting in the initial connection state, each of them invokes
its operation 2 times, not `maxRetries` = 3 times, and the shared counter ends
at 4, not at `maxRetries`. -/
theorem makeNetworkRequest_listener_masks_failure :
    (makeNetworkRequest alwaysFails 3
        ⟨initialConnection [throwingListener 1, calmListener 2], 0, []⟩).map
      (fun r => (r.1, invocations r.2.trace, notified false r.2.trace,
        decide (Event.disableNetwork ∈ r.2.trace)))
      = some (.error ⟨"listener failed", none⟩, 3, [1], false) ∧
    (alwaysFails { initialConnection [throwingListener 1, calmListener 2] with
        retryAttempts := 2 } 2).1 = .error ⟨"transport failure", none⟩ ∧
    (makeNetworkRequest alwaysFails 3
        ⟨initialConnection [throwingListener 1, calmListener 2], 0, []⟩).map (fun r => r.1)
      ≠ some (.error ⟨"transport failure", none⟩) ∧
    (fun s : Run String × Run String × Runtime (Nat × Nat) =>
        (s.1, s.2.1, s.2.2.conn.isOnline, s.2.2.conn.retryAttempts))
      (interleave firstAlwaysFails secondAlwaysFails [Turn.first, Turn.second] twoRuns)
      = (Run.awaiting (.error ⟨"transport failure", none⟩),
         Run.awaiting (.error ⟨"transport failure", none⟩), true, 0) ∧
    (fun s : Run String × Run String × Runtime (Nat × Nat) =>
        (s.1, s.2.1, s.2.2.world, s.2.2.conn.retryAttempts, s.2.2.conn.maxRetries,
          invocations s.2.2.trace))
      (interleave firstAlwaysFails secondAlwaysFails (bothStart ++ bothFinish) twoRuns)
      = (Run.returned (.error ⟨"transport failure", none⟩),
         Run.returned (.error ⟨"transport failure", none⟩), (2, 2), 4, 3, 4) := by
  decide

/-- Claim C10, amended: after a failed attempt that is not terminal the
executor suspends for `2 ^ retryAttempts * 100` ms, `retryAttempts` being the
counter already incremented, and retries.  In a run that no other executor run
overlaps, started from the initial connection state, the delays are 200 ms
after the first failed attempt and 400 ms after the second; a third failed
attempt brings the counter to `maxRetries` and is terminal, so that no delay of
800 ms occurs.  The last part states the condition on the run as a schedule:
whatever second run shares the runtime, the result is that of the schedule in
which only this run takes steps. -/
theorem makeNetworkRequest_backoff {W α : Type} (op : Operation W α)
    (ls : List Listener) (w0 : W) (tr : List Event) (fuel : Nat) (hfuel : 3 ≤ fuel) :
    (∀ (n k m : Nat) (w w1 : W) (t : List Event) (e : JSError),
      op ⟨true, k, m, ls⟩ w = (.error e, w1) → k + 1 < m →
      makeNetworkRequest op (n + 1) ⟨⟨true, k, m, ls⟩, w, t⟩ =
        makeNetworkRequest op n
          ⟨⟨true, k + 1, m, ls⟩, w1,
            t ++ [Event.enableNetwork, Event.invoke, Event.sleep (2 ^ (k + 1) * 100)]⟩) ∧
    (makeNetworkRequest op fuel ⟨initialConnection ls, w0, tr⟩).map (fun r => delays r.2.trace)
      = some (delays tr ++
          match op (initialConnection ls) w0 with
          | (.ok _, _) => []
          | (.error _, w1) =>
              match op { initialConnection ls with retryAttempts := 1 } w1 with
              | (.ok _, _) => [200]
              | (.error _, _) => [200, 400]) ∧
    (∀ (second : Operation W α) (b : Run α) (r : Except JSError α) (rt1 : Runtime W),
      makeNetworkRequest op fuel ⟨initialConnection ls, w0, tr⟩ = some (r, rt1) →
      ∃ n, interleave op second (List.replicate n Turn.first)
          (Run.ready, b, ⟨initialConnection ls, w0, tr⟩) = (Run.returned r, b, rt1)) := by
  refine ⟨fun n k m w w1 t e h hlt => makeNetworkRequest_retry op n k m ls w w1 t e h hlt, ?_,
    fun second b r rt1 h => makeNetworkRequest_alone op second fuel _ rt1 b r h⟩
  obtain ⟨n, rfl⟩ : ∃ n, fuel = n + 3 := ⟨fuel - 3, by omega⟩
  simp only [initialConnection]
  rcases h1 : op ⟨true, 0, 3, ls⟩ w0 with ⟨_ | _, w1⟩
  · rw [makeNetworkRequest_retry op (n + 2) 0 3 ls w0 w1 tr _ h1 (by decide)]
    rcases h2 : op ⟨true, 1, 3, ls⟩ w1 with ⟨_ | _, w2⟩
    · rw [makeNetworkRequest_retry op (n + 1) 1 3 ls w1 w2 _ _ h2 (by decide)]
      rcases h3 : op ⟨true, 2, 3, ls⟩ w2 with ⟨_ | _, w3⟩
      · rw [makeNetworkRequest_terminal op n 2 3 ls w2 w3 _ _ h3 (by decide)]
        generalize htr : tr ++ [Event.enableNetwork, Event.invoke, Event.sleep (2 ^ (0 + 1) * 100)]
          ++ [Event.enableNetwork, Event.invoke, Event.sleep (2 ^ (1 + 1) * 100)]
          ++ [Event.enableNetwork, Event.invoke] = tr0
        obtain ⟨k, hk⟩ := notifyListeners_trace false ls tr0
        rcases hn : notifyListeners false ls tr0 with ⟨_ | thrown, tr1⟩
        all_goals
          rw [hn] at hk
          simp only at hk
          subst hk
          subst htr
          simp [delays_append, delays_notifications, delays, h2]
      · rw [makeNetworkRequest_success op n 2 3 ls w2 w3 _ _ h3]
        simp [delays_append, delays, h2]
    · rw [makeNetworkRequest_success op (n + 1) 1 3 ls w1 w2 _ _ h2]
      simp [delays_append, delays, h2]
  · rw [makeNetworkRequest_success op (n + 2) 0 3 ls w0 w1 _ _ h1]
    simp [delays_append, delays]

/-- Instance of `makeNetworkRequest_backoff` at the operation `failsTwice`. -/
theorem makeNetworkRequest_backoff_witness :
    (makeNetworkRequest failsTwice 3 ⟨initialConnection [], 0, []⟩).map
        (fun r => delays r.2.trace) = some [200, 400] :=
  (makeNetworkRequest_backoff failsTwice [] 0 [] 3 (by decide)).2.1

/-- Claim C10 fails as stated.  When all three attempts of a run that nothing
overlaps fail, the operation has been invoked three times and the executor has
slept 200 ms and 400 ms; there is no third delay of 800 ms.  When two failing
runs overlap, both starting in the initial connection state, the first failure
of the second run finds the shared counter at 1 already: the first backoff of
that run is 400 ms, not 200 ms, and it has no other. -/
theorem makeNetworkRequest_no_third_delay :
    (makeNetworkRequest alwaysFails 5 ⟨initialConnection [], 0, []⟩).map
      (fun r => (invocations r.2.trace, delays r.2.trace)) = some (3, [200, 400]) ∧
    (makeNetworkRequest alwaysFails 5 ⟨initialConnection [], 0, []⟩).map
      (fun r => delays r.2.trace) ≠ some [200, 400, 800] ∧
    (fun s : Run String × Run String × Runtime (Nat × Nat) =>
        (s.1, s.2.1, s.2.2.conn.retryAttempts, delays s.2.2.trace))
      (interleave firstAlwaysFails secondAlwaysFails [Turn.first, Turn.second, Turn.first]
        twoRuns)
      = (Run.sleeping, Run.awaiting (.error ⟨"transport failure", none⟩), 1, [200]) ∧
    (fun s : Run String × Run String × Runtime (Nat × Nat) =>
        (s.1, s.2.1, s.2.2.conn.retryAttempts, delays s.2.2.trace))
      (interleave firstAlwaysFails secondAlwaysFails bothStart twoRuns)
      = (Run.sleeping, Run.sleeping, 2, [200, 400]) ∧
    (fun s : Run String × Run String × Runtime (Nat × Nat) =>
        (s.1, s.2.1, delays s.2.2.trace))
      (interleave firstAlwaysFails secondAlwaysFails (bothStart ++ bothFinish) twoRuns)
      = (Run.returned (.error ⟨"transport failure", none⟩),
         Run.returned (.error ⟨"transport failure", none⟩), [200, 400]) := by
  decide

/-- The executor returns once `fuel` covers the retries that are left. -/
theorem makeNetworkRequest_isSome {W α : Type} (op : Operation W α) (fuel : Nat)
    (rt : Runtime W) (h1 : 1 ≤ fuel) (h2 : rt.conn.maxRetries - rt.conn.retryAttempts ≤ fuel) :
    (makeNetworkRequest op fuel rt).isSome = true := by
  induction fuel generalizing rt with
  | zero => omega
  | succ n ih =>
    obtain ⟨⟨onl, k, m, ls⟩, w, tr⟩ := rt
    simp only at h2
    rw [makeNetworkRequest_step]
    rcases op ⟨onl, k, m, ls⟩ w with ⟨e | v, w1⟩
    · simp only
      split
      · rcases notifyListeners false ls (tr ++ attemptEvents onl) with ⟨_ | thrown, tr1⟩ <;> rfl
      · exact ih _ (by omega) (by simp only; omega)
    · rfl

/-- Every executor run that returns has invoked the operation at least once. -/
theorem makeNetworkRequest_invokes {W α : Type} (op : Operation W α) (fuel : Nat)
    (rt : Runtime W) (r : Except JSError α × Runtime W)
    (h : makeNetworkRequest op fuel rt = some r) :
    invocations rt.trace + 1 ≤ invocations r.2.trace := by
  induction fuel generalizing rt with
  | zero => simp [makeNetworkRequest] at h
  | succ n ih =>
    obtain ⟨⟨onl, k, m, ls⟩, w, tr⟩ := rt
    rw [makeNetworkRequest_step] at h
    have ha : invocations (tr ++ attemptEvents onl) = invocations tr + 1 := by
      cases onl <;> simp [invocations, attemptEvents, List.count_append]
    rcases hop : op ⟨onl, k, m, ls⟩ w with ⟨e | v, w1⟩ <;> rw [hop] at h <;> dsimp only at h
    · split at h
      · obtain ⟨j, hj⟩ := notifyListeners_trace false ls (tr ++ attemptEvents onl)
        have hz := invocations_notifications false (ls.take j)
        rcases hn : notifyListeners false ls (tr ++ attemptEvents onl) with ⟨_ | thrown, tr1⟩ <;>
          rw [hn] at h hj <;> simp only [Option.some.injEq] at h hj <;> subst h <;> subst hj <;>
          simp only [invocations_append, ha, hz] <;> omega
      · have := ih _ h
        simp only [invocations_append, ha] at this ⊢
        omega
    · simp only [Option.some.injEq] at h
      subst h
      rw [ha]

/-! ## The cached client -/

theorem mapGet_mapSet_same {β : Type} (m : List (String × β)) (key : String) (value : β) :
    mapGet (mapSet m key value) key = some value := by
  induction m with
  | nil => simp [mapSet, mapGet]
  | cons p m ih =>
    obtain ⟨k, v⟩ := p
    by_cases h : k = key
    · simp [mapSet, mapGet, h]
    · simp [mapSet, mapGet, h, ih]

theorem mapGet_mapSet_other {β : Type} (m : List (String × β)) (key other : String) (value : β)
    (h : other ≠ key) : mapGet (mapSet m key value) other = mapGet m other := by
  induction m with
  | nil => simp [mapSet, mapGet, h.symm]
  | cons p m ih =>
    obtain ⟨k, v⟩ := p
    by_cases hk : k = key
    · subst hk
      simp [mapSet, mapGet, h.symm]
    · by_cases ho : k = other
      · subst ho
        simp [mapSet, mapGet, hk]
      · simp [mapSet, mapGet, hk, ho, ih]

/-- A valid coordinate passes the guard of `getUVData`. -/
theorem guard_of_valid (lat lng : JSNumber)
    (h : validCoordinate (.number lat) (.number lng) = true) :
    (lat.ltConst (-90) || lat.gtConst 90 || lng.ltConst (-180) || lng.gtConst 180) = false := by
  cases lat <;> cases lng <;> simp [validCoordinate] at h
  obtain ⟨⟨⟨h1, h2⟩, h3⟩, h4⟩ := h
  simp [JSNumber.ltConst, JSNumber.gtConst, h1, h2, h3, h4]

/-- A fresh entry under the key is returned without any effect. -/
theorem getUVData_hit {W P : Type} (fetch : JSNumber → JSNumber → Operation W P)
    (fuel : Nat) (now₁ now₂ : Int) (lat lng : JSNumber)
    (cache : List (String × CacheEntry P)) (rt : Runtime W) (entry : CacheEntry P)
    (hvalid : validCoordinate (.number lat) (.number lng) = true)
    (hget : mapGet cache (cacheKey lat lng) = some entry)
    (hfresh : now₁ - entry.timestamp < CACHE_DURATION) :
    getUVData fetch fuel now₁ now₂ (.number lat) (.number lng) cache rt
      = some (.ok entry.data, cache, rt) := by
  simp [getUVData, guard_of_valid lat lng hvalid, hget, freshData, hfresh]

/-- Without a fresh entry the fetch goes through the executor. -/
theorem getUVData_miss {W P : Type} (fetch : JSNumber → JSNumber → Operation W P)
    (fuel : Nat) (now₁ now₂ : Int) (lat lng : JSNumber)
    (cache : List (String × CacheEntry P)) (rt : Runtime W)
    (hvalid : validCoordinate (.number lat) (.number lng) = true)
    (hmiss : freshData (mapGet cache (cacheKey lat lng)) now₁ = none) :
    getUVData fetch fuel now₁ now₂ (.number lat) (.number lng) cache rt
      = match makeNetworkRequest (fetch lat lng) fuel rt with
        | none => none
        | some (.error error, rt1) => some (.error error, cache, rt1)
        | some (.ok data, rt1) =>
            some (.ok ⟨data, lat, lng⟩,
              mapSet cache (cacheKey lat lng) ⟨⟨data, lat, lng⟩, now₂⟩, rt1) := by
  simp only [getUVData, guard_of_valid lat lng hvalid, hmiss]
  rfl

/-- The miss condition in the words of the claim: no entry, or an entry whose
age has reached `CACHE_DURATION`. -/
theorem freshData_none {P : Type} (cached : Option (CacheEntry P)) (now : Int)
    (h : cached = none ∨ ∃ entry, cached = some entry ∧ CACHE_DURATION ≤ now - entry.timestamp) :
    freshData cached now = none := by
  rcases h with h | ⟨entry, h, hage⟩
  · simp [h, freshData]
  · simp [h, freshData, not_lt.mpr hage]

theorem makeNetworkRequest_first_success {W α : Type} (op : Operation W α) (n : Nat)
    (rt : Runtime W) (v : α) (w1 : W) (h : op rt.conn rt.world = (.ok v, w1)) :
    makeNetworkRequest op (n + 1) rt
      = some (.ok v, ⟨rt.conn, w1, rt.trace ++ attemptEvents rt.conn.isOnline⟩) := by
  obtain ⟨⟨onl, k, m, ls⟩, w, tr⟩ := rt
  rw [makeNetworkRequest_step]
  simp only at h
  rw [h]

/-- The part of claim C1 that the code satisfies: when one of the arguments is
not a number, is an infinity, or is a finite number out of range, and neither
is NaN, `getUVData` throws the invalid-coordinates error, invokes nothing and
leaves the cache and the connection state as they are.  This covers (91, 0) and
(0, 181). -/
theorem getUVData_rejects {W P : Type} (fetch : JSNumber → JSNumber → Operation W P)
    (fuel : Nat) (now₁ now₂ : Int) (lat lng : JSValue)
    (cache : List (String × CacheEntry P)) (rt : Runtime W)
    (hinvalid : validCoordinate lat lng = false)
    (hlat : lat ≠ .number .nan) (hlng : lng ≠ .number .nan) :
    getUVData fetch fuel now₁ now₂ lat lng cache rt
      = some (.error invalidCoordinates, cache, rt) := by
  rcases lat with (_ | _ | _ | ⟨m, k⟩) | _ <;> rcases lng with (_ | _ | _ | ⟨n, j⟩) | _ <;>
    simp_all [getUVData, validCoordinate, JSNumber.ltConst, JSNumber.gtConst]

/-- Instances of `getUVData_rejects`: the calls `getUVData(91, 0)` and
`getUVData(0, 181)` on a freshly loaded module. -/
theorem getUVData_rejects_witness :
    getUVData fetchStub 3 1000 1001 (.number (.finite 91 0)) (.number (.finite 0 0)) [] freshRuntime
      = some (.error invalidCoordinates, [], freshRuntime) ∧
    getUVData fetchStub 3 1000 1001 (.number (.finite 0 0)) (.number (.finite 181 0)) [] freshRuntime
      = some (.error invalidCoordinates, [], freshRuntime) :=
  ⟨getUVData_rejects fetchStub 3 1000 1001 _ _ [] freshRuntime (by decide) (by decide) (by decide),
   getUVData_rejects fetchStub 3 1000 1001 _ _ [] freshRuntime (by decide) (by decide) (by decide)⟩

/-- Claim C1 at the input (NaN, 0): NaN is a number for `typeof` and every
comparison with it is false, so the guard lets it through; the call does not
throw the invalid-coordinates error, the fetch is invoked and its result is
cached under the key `NaN,0.0000`. -/
theorem getUVData_accepts_NaN :
    validCoordinate (.number .nan) (.number (.finite 0 0)) = false ∧
    (getUVData fetchStub 3 1000 1001 (.number .nan) (.number (.finite 0 0)) [] freshRuntime).map
        (fun r => (r.1, r.2.1, r.2.2.trace))
      = some (.ok ⟨"uv", .nan, .finite 0 0⟩,
          [("NaN,0.0000", ⟨⟨"uv", .nan, .finite 0 0⟩, 1001⟩)],
          [Event.enableNetwork, Event.invoke]) ∧
    (getUVData fetchStub 3 1000 1001 (.number .nan) (.number (.finite 0 0)) [] freshRuntime).map
        (fun r => (r.1, invocations r.2.2.trace))
      ≠ some (.error invalidCoordinates, 0) := by
  decide

/-- Claim C7: for a valid coordinate, (1) a cache entry under its key that is
younger than `CACHE_DURATION` is returned with no fetch and no change of the
cache or the runtime; (2) with no entry, or one whose age has reached
`CACHE_DURATION`, the call returns once the fuel covers the retries, every
result has invoked the fetch, and a successful run stores the payload with
`lat`/`lng` attached under the key with the time of the store and returns it;
(3) after a first call whose fetch succeeds at once, a second call within the
window issues no further fetch, so that the two calls issue exactly one, and a
call after the window has elapsed issues another fetch. -/
theorem getUVData_cache_window {W P : Type} (fetch : JSNumber → JSNumber → Operation W P)
    (fuel : Nat) (lat lng : JSNumber) (cache : List (String × CacheEntry P)) (rt : Runtime W)
    (hvalid : validCoordinate (.number lat) (.number lng) = true) :
    (∀ (now₁ now₂ : Int) (entry : CacheEntry P),
      mapGet cache (cacheKey lat lng) = some entry →
      now₁ - entry.timestamp < CACHE_DURATION →
      getUVData fetch fuel now₁ now₂ (.number lat) (.number lng) cache rt
        = some (.ok entry.data, cache, rt)) ∧
    (∀ (now₁ now₂ : Int),
      (mapGet cache (cacheKey lat lng) = none ∨
        ∃ entry, mapGet cache (cacheKey lat lng) = some entry ∧
          CACHE_DURATION ≤ now₁ - entry.timestamp) →
      (1 ≤ fuel → rt.conn.maxRetries - rt.conn.retryAttempts ≤ fuel →
        (getUVData fetch fuel now₁ now₂ (.number lat) (.number lng) cache rt).isSome = true) ∧
      (∀ r, getUVData fetch fuel now₁ now₂ (.number lat) (.number lng) cache rt = some r →
        invocations rt.trace + 1 ≤ invocations r.2.2.trace) ∧
      (∀ (data : P) (rt1 : Runtime W),
        makeNetworkRequest (fetch lat lng) fuel rt = some (.ok data, rt1) →
        getUVData fetch fuel now₁ now₂ (.number lat) (.number lng) cache rt
          = some (.ok ⟨data, lat, lng⟩,
              mapSet cache (cacheKey lat lng) ⟨⟨data, lat, lng⟩, now₂⟩, rt1) ∧
        mapGet (mapSet cache (cacheKey lat lng) ⟨⟨data, lat, lng⟩, now₂⟩) (cacheKey lat lng)
          = some ⟨⟨data, lat, lng⟩, now₂⟩)) ∧
    (∀ (t1 s1 t2 s2 t3 s3 : Int) (data : P) (w1 : W),
      freshData (mapGet cache (cacheKey lat lng)) t1 = none →
      1 ≤ fuel →
      fetch lat lng rt.conn rt.world = (.ok data, w1) →
      t2 - s1 < CACHE_DURATION → CACHE_DURATION ≤ t3 - s1 →
      getUVData fetch fuel t1 s1 (.number lat) (.number lng) cache rt
        = some (.ok ⟨data, lat, lng⟩,
            mapSet cache (cacheKey lat lng) ⟨⟨data, lat, lng⟩, s1⟩,
            ⟨rt.conn, w1, rt.trace ++ attemptEvents rt.conn.isOnline⟩) ∧
      invocations (rt.trace ++ attemptEvents rt.conn.isOnline) = invocations rt.trace + 1 ∧
      getUVData fetch fuel t2 s2 (.number lat) (.number lng)
          (mapSet cache (cacheKey lat lng) ⟨⟨data, lat, lng⟩, s1⟩)
          ⟨rt.conn, w1, rt.trace ++ attemptEvents rt.conn.isOnline⟩
        = some (.ok ⟨data, lat, lng⟩,
            mapSet cache (cacheKey lat lng) ⟨⟨data, lat, lng⟩, s1⟩,
            ⟨rt.conn, w1, rt.trace ++ attemptEvents rt.conn.isOnline⟩) ∧
      (∀ r, getUVData fetch fuel t3 s3 (.number lat) (.number lng)
          (mapSet cache (cacheKey lat lng) ⟨⟨data, lat, lng⟩, s1⟩)
          ⟨rt.conn, w1, rt.trace ++ attemptEvents rt.conn.isOnline⟩ = some r →
        invocations rt.trace + 2 ≤ invocations r.2.2.trace)) := by
  have hmissRun : ∀ (c : List (String × CacheEntry P)) (s : Runtime W) (now₁ now₂ : Int),
      freshData (mapGet c (cacheKey lat lng)) now₁ = none →
      ∀ r, getUVData fetch fuel now₁ now₂ (.number lat) (.number lng) c s = some r →
        invocations s.trace + 1 ≤ invocations r.2.2.trace := by
    intro c s now₁ now₂ hmiss r hr
    rw [getUVData_miss fetch fuel now₁ now₂ lat lng c s hvalid hmiss] at hr
    rcases hrun : makeNetworkRequest (fetch lat lng) fuel s with _ | ⟨res, s1⟩
    · simp [hrun] at hr
    · have hinv := makeNetworkRequest_invokes _ _ _ _ hrun
      rcases res with e | d <;> simp [hrun] at hr <;> subst hr <;> exact hinv
  refine ⟨fun now₁ now₂ entry hget hfresh =>
      getUVData_hit fetch fuel now₁ now₂ lat lng cache rt entry hvalid hget hfresh, ?_, ?_⟩
  · intro now₁ now₂ hcond
    have hmiss := freshData_none (mapGet cache (cacheKey lat lng)) now₁ hcond
    refine ⟨?_, hmissRun cache rt now₁ now₂ hmiss, ?_⟩
    · intro h1 h2
      rw [getUVData_miss fetch fuel now₁ now₂ lat lng cache rt hvalid hmiss]
      have hs := makeNetworkRequest_isSome (fetch lat lng) fuel rt h1 h2
      rcases hrun : makeNetworkRequest (fetch lat lng) fuel rt with _ | ⟨res, s1⟩
      · simp [hrun] at hs
      · rcases res with e | d <;> rfl
    · intro data rt1 hrun
      refine ⟨?_, mapGet_mapSet_same _ _ _⟩
      rw [getUVData_miss fetch fuel now₁ now₂ lat lng cache rt hvalid hmiss, hrun]
  · intro t1 s1 t2 s2 t3 s3 data w1 hmiss hfuel hfetch h2 h3
    obtain ⟨n, rfl⟩ : ∃ n, fuel = n + 1 := ⟨fuel - 1, by omega⟩
    have hrun := makeNetworkRequest_first_success (fetch lat lng) n rt data w1 hfetch
    have ha : invocations (rt.trace ++ attemptEvents rt.conn.isOnline)
        = invocations rt.trace + 1 := by
      cases rt.conn.isOnline <;> simp [invocations, attemptEvents, List.count_append]
    refine ⟨?_, ha, ?_, ?_⟩
    · rw [getUVData_miss fetch _ t1 s1 lat lng cache rt hvalid hmiss, hrun]
    · exact getUVData_hit fetch _ t2 s2 lat lng _ _ ⟨⟨data, lat, lng⟩, s1⟩ hvalid
        (mapGet_mapSet_same _ _ _) h2
    · intro r hr
      have hstale : freshData (mapGet (mapSet cache (cacheKey lat lng) ⟨⟨data, lat, lng⟩, s1⟩)
          (cacheKey lat lng)) t3 = none :=
        freshData_none _ _ (Or.inr ⟨_, mapGet_mapSet_same _ _ _, h3⟩)
      have := hmissRun _ _ t3 s3 hstale r hr
      simp only [ha] at this
      omega

/-- Instance of `getUVData_cache_window`: three calls of
`getUVData(37.7749, -122.4194)` on a freshly loaded module, at 1000 ms (stored
at 1200 ms), at 200000 ms and at 400000 ms. -/
theorem getUVData_cache_window_witness :
    validCoordinate (.number sfLat) (.number sfLng) = true ∧
    getUVData fetchStub 3 1000 1200 (.number sfLat) (.number sfLng) [] freshRuntime
      = some (.ok ⟨"uv", sfLat, sfLng⟩,
          [("37.7749,-122.4194", ⟨⟨"uv", sfLat, sfLng⟩, 1200⟩)],
          ⟨initialConnection [], 1, [Event.enableNetwork, Event.invoke]⟩) ∧
    getUVData fetchStub 3 200000 200100 (.number sfLat) (.number sfLng)
        [("37.7749,-122.4194", ⟨⟨"uv", sfLat, sfLng⟩, 1200⟩)]
        ⟨initialConnection [], 1, [Event.enableNetwork, Event.invoke]⟩
      = some (.ok ⟨"uv", sfLat, sfLng⟩,
          [("37.7749,-122.4194", ⟨⟨"uv", sfLat, sfLng⟩, 1200⟩)],
          ⟨initialConnection [], 1, [Event.enableNetwork, Event.invoke]⟩) ∧
    (getUVData fetchStub 3 400000 400100 (.number sfLat) (.number sfLng)
        [("37.7749,-122.4194", ⟨⟨"uv", sfLat, sfLng⟩, 1200⟩)]
        ⟨initialConnection [], 1, [Event.enableNetwork, Event.invoke]⟩).map
      (fun r => invocations r.2.2.trace) = some 2 :=
  ⟨by decide,
    ((getUVData_cache_window fetchStub 3 sfLat sfLng [] freshRuntime (by decide)).2.2
      1000 1200 200000 200100 400000 400100 "uv" 1 rfl (by decide) rfl (by decide)
      (by decide)).1,
    ((getUVData_cache_window fetchStub 3 sfLat sfLng [] freshRuntime (by decide)).2.2
      1000 1200 200000 200100 400000 400100 "uv" 1 rfl (by decide) rfl (by decide)
      (by decide)).2.2.1,
    by decide⟩

/-! ## The cache key -/

/-- The rendering of a finite number by `toFixed(4)`, in terms of its value
rounded to 4 decimal places: a minus sign when the number is negative, then
the digits of the absolute value of the rounded number. -/
theorem toFixed4_rounded (m : Int) (k : Nat) :
    toFixed4 (.finite m k)
      = (if m < 0 then "-" else "") ++ String.mk (fixedDigits 4 (rounded4 m k).natAbs) := by
  by_cases h : m < 0 <;> simp [toFixed4, rounded4, h]

/-- Claim C8, amended: the cache key is the rendering of the latitude rounded
to 4 decimal places, a comma, and the rendering of the longitude rounded to 4
decimal places, where a negative number is rendered with a minus sign even
when it rounds to zero.  Two coordinates whose components round to the same
4-decimal values and are, component by component, both negative or both
non-negative have the same key, and the second one is served from a fresh
cache entry stored for the first.  The doubles 37.77491, -122.41941 and
37.77492, -122.41939 both give the key `37.7749,-122.4194`. -/
theorem cacheKey_quantized (m₁ n₁ m₂ n₂ : Int) (k₁ j₁ k₂ j₂ : Nat)
    (hlat : rounded4 m₁ k₁ = rounded4 m₂ k₂) (hlatSign : m₁ < 0 ↔ m₂ < 0)
    (hlng : rounded4 n₁ j₁ = rounded4 n₂ j₂) (hlngSign : n₁ < 0 ↔ n₂ < 0) :
    cacheKey (.finite m₁ k₁) (.finite n₁ j₁)
      = (if m₁ < 0 then "-" else "") ++ String.mk (fixedDigits 4 (rounded4 m₁ k₁).natAbs)
        ++ "," ++
        ((if n₁ < 0 then "-" else "") ++ String.mk (fixedDigits 4 (rounded4 n₁ j₁).natAbs)) ∧
    cacheKey (.finite m₁ k₁) (.finite n₁ j₁) = cacheKey (.finite m₂ k₂) (.finite n₂ j₂) ∧
    (∀ {W P : Type} (fetch : JSNumber → JSNumber → Operation W P) (fuel : Nat)
        (now₁ now₂ : Int) (cache : List (String × CacheEntry P)) (rt : Runtime W)
        (entry : CacheEntry P),
      validCoordinate (.number (.finite m₂ k₂)) (.number (.finite n₂ j₂)) = true →
      mapGet cache (cacheKey (.finite m₁ k₁) (.finite n₁ j₁)) = some entry →
      now₁ - entry.timestamp < CACHE_DURATION →
      getUVData fetch fuel now₁ now₂ (.number (.finite m₂ k₂)) (.number (.finite n₂ j₂)) cache rt
        = some (.ok entry.data, cache, rt)) ∧
    cacheKey (.finite 5316345956248563 47) (.finite (-4307250072335281) 45)
      = "37.7749,-122.4194" ∧
    cacheKey (.finite 5316347363623447 47) (.finite (-8614498737295679) 46)
      = "37.7749,-122.4194" := by
  have hkey : cacheKey (.finite m₁ k₁) (.finite n₁ j₁)
      = cacheKey (.finite m₂ k₂) (.finite n₂ j₂) := by
    simp only [cacheKey, toFixed4_rounded, hlat, hlng]
    have h1 : (if m₁ < 0 then "-" else "") = (if m₂ < 0 then "-" else "") := by
      simp only [hlatSign]
    have h2 : (if n₁ < 0 then "-" else "") = (if n₂ < 0 then "-" else "") := by
      simp only [hlngSign]
    rw [h1, h2]
  refine ⟨by simp only [cacheKey, toFixed4_rounded], hkey, ?_, by decide, by decide⟩
  intro W P fetch fuel now₁ now₂ cache rt entry hvalid hget hfresh
  exact getUVData_hit fetch fuel now₁ now₂ _ _ cache rt entry hvalid (hkey ▸ hget) hfresh

/-- Instance of `cacheKey_quantized` at the doubles 37.77491, -122.41941 and
37.77492, -122.41939. -/
theorem cacheKey_quantized_witness :
    rounded4 5316345956248563 47 = rounded4 5316347363623447 47 ∧
    rounded4 (-4307250072335281) 45 = rounded4 (-8614498737295679) 46 ∧
    cacheKey (.finite 5316345956248563 47) (.finite (-4307250072335281) 45)
      = cacheKey (.finite 5316347363623447 47) (.finite (-8614498737295679) 46) :=
  ⟨by decide, by decide,
    (cacheKey_quantized 5316345956248563 (-4307250072335281) 5316347363623447
      (-8614498737295679) 47 45 47 46 (by decide) (by decide) (by decide) (by decide)).2.1⟩

/-- Claim C8 fails as stated: the valid coordinates (-2^-20, 0) and (2^-20, 0)
round to the same 4-decimal values (0 and 0), but their keys are
`-0.0000,0.0000` and `0.0000,0.0000`, and a call for the second one is not
served from the entry of the first: it fetches again. -/
theorem cacheKey_negative_zero :
    validCoordinate (.number (.finite (-1) 20)) (.number (.finite 0 0)) = true ∧
    validCoordinate (.number (.finite 1 20)) (.number (.finite 0 0)) = true ∧
    rounded4 (-1) 20 = rounded4 1 20 ∧
    cacheKey (.finite (-1) 20) (.finite 0 0) = "-0.0000,0.0000" ∧
    cacheKey (.finite 1 20) (.finite 0 0) = "0.0000,0.0000" ∧
    cacheKey (.finite (-1) 20) (.finite 0 0) ≠ cacheKey (.finite 1 20) (.finite 0 0) ∧
    (getUVData fetchStub 3 2000 2001 (.number (.finite 1 20)) (.number (.finite 0 0))
        [("-0.0000,0.0000", ⟨⟨"uv", .finite (-1) 20, .finite 0 0⟩, 1001⟩)]
        ⟨initialConnection [], 1, [Event.enableNetwork, Event.invoke]⟩).map
      (fun r => invocations r.2.2.trace) = some 2 := by
  decide

/-! ## The write queue -/

theorem process_fields {W α : Type} (q : WriteQueue W α) :
    q.process.pendingWrites = q.pendingWrites ∧ q.process.settled = q.settled ∧
    q.process.nextPromise = q.nextPromise := by
  obtain ⟨queue, isProcessing, pendingWrites, running, settled, nextPromise⟩ := q
  cases isProcessing <;> cases queue <;> simp [WriteQueue.process]

/-- The call of `process` starts the head of the queue when nothing is running
and leaves the writes in flight as they are. -/
theorem process_inFlight {W α : Type} (q : WriteQueue W α)
    (h : q.isProcessing = q.running.isSome) :
    q.process.inFlight = q.inFlight ∧
    q.process.isProcessing = q.process.running.isSome ∧
    (q.process.isProcessing = false → q.process.queue = []) := by
  obtain ⟨queue, isProcessing, pendingWrites, running, settled, nextPromise⟩ := q
  cases isProcessing <;> cases queue <;> cases running <;>
    simp_all [WriteQueue.process, WriteQueue.inFlight]

theorem mem_setAdd (s : List String) (key k : String) :
    k ∈ setAdd s key ↔ k ∈ s ∨ k = key := by
  unfold setAdd
  split
  · constructor
    · exact Or.inl
    · rintro (h | rfl)
      · exact h
      · assumption
  · simp

theorem mem_setDelete (s : List String) (key k : String) :
    k ∈ setDelete s key ↔ k ∈ s ∧ k ≠ key := by
  simp [setDelete]

/-- An idle queue that satisfies the invariant has no write in flight. -/
theorem inFlight_of_running_none {W α : Type} (q : WriteQueue W α) (hinv : q.Inv)
    (h : q.running = none) : q.inFlight = [] := by
  obtain ⟨_, _, h3, h4⟩ := hinv
  rw [h] at h3
  simp [WriteQueue.inFlight, h, h4 h3]

/-- The first call of `add` for a key that is not pending appends one write
to those in flight and keeps the invariant. -/
theorem add_new {W α : Type} (q : WriteQueue W α) (k : String) (op : Operation W α)
    (hinv : q.Inv) (hk : k ∉ q.pendingWrites) :
    (q.add op k).1 = .created q.nextPromise ∧
    (q.add op k).2.inFlight = q.inFlight ++ [⟨op, q.nextPromise, k⟩] ∧
    (q.add op k).2.settled = q.settled ∧
    (q.add op k).2.Inv := by
  obtain ⟨h1, h2, h3, h4⟩ := hinv
  have hp := process_inFlight
    { q with queue := q.queue ++ [⟨op, q.nextPromise, k⟩], nextPromise := q.nextPromise + 1,
             pendingWrites := setAdd q.pendingWrites k } h3
  have hf := process_fields
    { q with queue := q.queue ++ [⟨op, q.nextPromise, k⟩], nextPromise := q.nextPromise + 1,
             pendingWrites := setAdd q.pendingWrites k }
  have hfl : (q.add op k).2.inFlight = q.inFlight ++ [⟨op, q.nextPromise, k⟩] := by
    simp only [WriteQueue.add, hk, if_false]
    rw [hp.1]
    simp [WriteQueue.inFlight]
  refine ⟨by simp [WriteQueue.add, hk], hfl, ?_, ?_, ?_, ?_, ?_⟩
  · simp only [WriteQueue.add, hk, if_false]
    exact hf.2.1
  · rw [hfl]
    simp only [List.map_append, List.map_cons, List.map_nil]
    rw [List.nodup_append]
    refine ⟨h1, by simp, ?_⟩
    intro a ha hb
    simp only [List.mem_singleton] at hb
    subst hb
    exact hk ((h2 a).mpr ha)
  · intro a
    rw [hfl]
    simp only [WriteQueue.add, hk, if_false]
    rw [hf.1]
    simp only [mem_setAdd, List.map_append, List.map_cons, List.map_nil, List.mem_append,
      List.mem_singleton, h2 a]
  · simp only [WriteQueue.add, hk, if_false]
    exact hp.2.1
  · simp only [WriteQueue.add, hk, if_false]
    exact hp.2.2

/-- A call of `add` for a pending key returns a promise that is resolved
already and changes nothing. -/
theorem add_pending {W α : Type} (q : WriteQueue W α) (k : String) (op : Operation W α)
    (hk : k ∈ q.pendingWrites) :
    q.add op k = (.settled (.resolve .undefined), q) := by
  simp [WriteQueue.add, hk]

/-- An executor run starts no run of the write queue and leaves `maxRetries`
as it is. -/
theorem makeNetworkRequest_frame {W α : Type} (op : Operation W α) (fuel : Nat)
    (rt : Runtime W) (r : Except JSError α × Runtime W) (key : String)
    (h : makeNetworkRequest op fuel rt = some r) :
    executions key r.2.trace = executions key rt.trace ∧
    r.2.conn.maxRetries = rt.conn.maxRetries := by
  induction fuel generalizing rt with
  | zero => simp [makeNetworkRequest] at h
  | succ n ih =>
    obtain ⟨⟨onl, k, m, ls⟩, w, tr⟩ := rt
    rw [makeNetworkRequest_step] at h
    have ha : executions key (attemptEvents onl) = 0 := by
      cases onl <;> simp [executions, attemptEvents]
    have hd : executions key [Event.disableNetwork] = 0 := by simp [executions]
    have hs : ∀ ms, executions key [Event.sleep ms] = 0 := by simp [executions]
    rcases hop : op ⟨onl, k, m, ls⟩ w with ⟨e | v, w1⟩ <;> rw [hop] at h <;> dsimp only at h
    · split at h
      · obtain ⟨j, hj⟩ := notifyListeners_trace false ls (tr ++ attemptEvents onl)
        have hz := executions_notifications key false (ls.take j)
        rcases hn : notifyListeners false ls (tr ++ attemptEvents onl) with ⟨_ | thrown, tr1⟩ <;>
          rw [hn] at h hj <;> simp only [Option.some.injEq] at h hj <;> subst h <;> subst hj <;>
          simp only [executions_append, ha, hz, hd, Nat.add_zero, and_self]
      · have := ih _ h
        simpa only [executions_append, ha, hs, Nat.add_zero] using this
    · simp only [Option.some.injEq] at h
      subst h
      simp only [executions_append, ha, Nat.add_zero, and_self]

/-- The completion of the running write: its promise is settled according to
the outcome of the executor run, its key leaves the pending set, and the next
write is started. -/
theorem resume_running {W α : Type} (q : WriteQueue W α) (fuel : Nat) (rt rt1 : Runtime W)
    (item : QueuedWrite W α) (r : Except JSError α)
    (hrun : q.running = some item)
    (hexec : makeNetworkRequest item.operation fuel (rt.log (Event.execute item.key))
      = some (r, rt1)) :
    q.resume fuel rt
      = some (WriteQueue.process
          { q with settled := q.settled ++ [(item.promise, settlementOf r)],
                   pendingWrites := setDelete q.pendingWrites item.key,
                   isProcessing := false, running := none }, rt1) := by
  simp [WriteQueue.resume, hrun, hexec]

/-- The completion of the running write removes it from the writes in flight
and keeps the invariant. -/
theorem resume_inv {W α : Type} (q q1 : WriteQueue W α) (fuel : Nat) (rt rt1 : Runtime W)
    (item : QueuedWrite W α) (hinv : q.Inv) (hrun : q.running = some item)
    (h : q.resume fuel rt = some (q1, rt1)) :
    q1.inFlight = q.queue ∧ q1.Inv ∧
    (∀ key, executions key rt1.trace
      = executions key rt.trace + (if item.key = key then 1 else 0)) ∧
    rt1.conn.maxRetries = rt.conn.maxRetries := by
  obtain ⟨h1, h2, h3, h4⟩ := hinv
  rcases hexec : makeNetworkRequest item.operation fuel (rt.log (Event.execute item.key))
    with _ | ⟨r, rt2⟩
  · simp [WriteQueue.resume, hrun, hexec] at h
  · rw [resume_running q fuel rt rt2 item r hrun hexec] at h
    simp only [Option.some.injEq, Prod.mk.injEq] at h
    obtain ⟨hq, hrt⟩ := h
    subst hrt
    have hp := process_inFlight
      { q with settled := q.settled ++ [(item.promise, settlementOf r)],
               pendingWrites := setDelete q.pendingWrites item.key,
               isProcessing := false, running := none } rfl
    have hf := process_fields
      { q with settled := q.settled ++ [(item.promise, settlementOf r)],
               pendingWrites := setDelete q.pendingWrites item.key,
               isProcessing := false, running := none }
    rw [hq] at hp hf
    have hfl : q1.inFlight = q.queue := by
      rw [hp.1]
      simp [WriteQueue.inFlight]
    have hkeys : q.inFlight.map (fun i => i.key) = item.key :: q.queue.map (fun i => i.key) := by
      simp [WriteQueue.inFlight, hrun]
    rw [hkeys] at h1
    refine ⟨hfl, ⟨?_, ?_, hp.2.1, hp.2.2⟩, ?_, ?_⟩
    · rw [hfl]
      exact (List.nodup_cons.mp h1).2
    · intro a
      rw [hfl, hf.1]
      simp only [mem_setDelete, h2 a, hkeys, List.mem_cons]
      constructor
      · rintro ⟨h | h, hne⟩
        · exact absurd h hne
        · exact h
      · intro h
        refine ⟨Or.inr h, ?_⟩
        intro heq
        subst heq
        exact (List.nodup_cons.mp h1).1 h
    · intro key
      have := (makeNetworkRequest_frame _ _ _ _ key hexec).1
      simp only [Runtime.log, executions_append] at this
      rw [this]
      simp [executions, List.count_singleton]
    · have := (makeNetworkRequest_frame _ _ _ _ "" hexec).2
      simpa [Runtime.log] using this

/-- The count of entries for a key among the writes in flight, by cases on the
first of them. -/
theorem entries_eq {W α : Type} (q : WriteQueue W α) (item : QueuedWrite W α) (key : String)
    (hrun : q.running = some item) :
    q.entries key
      = (if item.key = key then 1 else 0)
        + (q.queue.filter (fun i => i.key == key)).length := by
  by_cases h : item.key = key
  · simp [WriteQueue.entries, WriteQueue.inFlight, hrun, List.filter_cons, h]
    omega
  · simp [WriteQueue.entries, WriteQueue.inFlight, hrun, List.filter_cons, h]

/-- Without a running write `resume` does nothing. -/
theorem resume_idle {W α : Type} (q : WriteQueue W α) (fuel : Nat) (rt : Runtime W)
    (hrun : q.running = none) : q.resume fuel rt = some (q, rt) := by
  simp [WriteQueue.resume, hrun]

/-- Along any drain, the executor runs started for a key and the writes in
flight for it add up to the same number: every write is run once, when it
leaves the queue. -/
theorem drain_executions {W α : Type} (fuel n : Nat) (q q1 : WriteQueue W α)
    (rt rt1 : Runtime W) (hinv : q.Inv) (h : q.drain fuel n rt = some (q1, rt1)) :
    q1.Inv ∧ ∀ key, executions key rt1.trace + q1.entries key
      = executions key rt.trace + q.entries key := by
  induction n generalizing q rt with
  | zero =>
    simp only [WriteQueue.drain, Option.some.injEq, Prod.mk.injEq] at h
    obtain ⟨rfl, rfl⟩ := h
    exact ⟨hinv, fun _ => rfl⟩
  | succ n ih =>
    simp only [WriteQueue.drain] at h
    rcases hres : q.resume fuel rt with _ | ⟨q2, rt2⟩
    · simp [hres] at h
    · rw [hres] at h
      dsimp only at h
      rcases hrun : q.running with _ | item
      · rw [resume_idle q fuel rt hrun] at hres
        simp only [Option.some.injEq, Prod.mk.injEq] at hres
        obtain ⟨rfl, rfl⟩ := hres
        exact ih q rt hinv h
      · obtain ⟨hfl, hinv2, hex, -⟩ := resume_inv q q2 fuel rt rt2 item hinv hrun hres
        obtain ⟨hinv1, hsum⟩ := ih q2 rt2 hinv2 h
        refine ⟨hinv1, fun key => ?_⟩
        rw [hsum key, hex key, entries_eq q item key hrun]
        simp only [WriteQueue.entries, hfl]
        omega

/-- Once the fuel exceeds `maxRetries`, as many calls of `resume` as there are
writes in flight empty the queue. -/
theorem drain_total {W α : Type} (fuel n : Nat) (q : WriteQueue W α) (rt : Runtime W)
    (hinv : q.Inv) (hfuel : rt.conn.maxRetries < fuel) (hlen : q.inFlight.length ≤ n) :
    ∃ q1 rt1, q.drain fuel n rt = some (q1, rt1) ∧ q1.inFlight = [] := by
  induction n generalizing q rt with
  | zero =>
    exact ⟨q, rt, rfl, List.length_eq_zero.mp (Nat.le_zero.mp hlen)⟩
  | succ n ih =>
    rcases hrun : q.running with _ | item
    · have hnil := inFlight_of_running_none q hinv hrun
      obtain ⟨q1, rt1, h1, h2⟩ := ih q rt hinv hfuel (by simp [hnil])
      exact ⟨q1, rt1, by simp [WriteQueue.drain, resume_idle q fuel rt hrun, h1], h2⟩
    · have hsome := makeNetworkRequest_isSome item.operation fuel
        (rt.log (Event.execute item.key)) (by omega) (by simp only [Runtime.log]; omega)
      rcases hexec : makeNetworkRequest item.operation fuel (rt.log (Event.execute item.key))
        with _ | ⟨r, rt2⟩
      · simp [hexec] at hsome
      · have hres := resume_running q fuel rt rt2 item r hrun hexec
        obtain ⟨hfl, hinv2, -, hmax⟩ := resume_inv q _ fuel rt rt2 item hinv hrun hres
        have hlen2 : (WriteQueue.process
            { q with settled := q.settled ++ [(item.promise, settlementOf r)],
                     pendingWrites := setDelete q.pendingWrites item.key,
                     isProcessing := false, running := none }).inFlight.length ≤ n := by
          rw [hfl]
          simp [WriteQueue.inFlight, hrun] at hlen
          omega
        obtain ⟨q1, rt1, h1, h2⟩ := ih _ rt2 hinv2 (by omega) hlen2
        exact ⟨q1, rt1, by simp [WriteQueue.drain, hres, h1], h2⟩

/-- The module starts with a queue that satisfies the invariant. -/
theorem initial_inv (W α : Type) : (WriteQueue.initial W α).Inv := by
  simp [WriteQueue.Inv, WriteQueue.initial, WriteQueue.inFlight]

/-- Every call of `add` keeps the invariant. -/
theorem add_inv {W α : Type} (q : WriteQueue W α) (k : String) (op : Operation W α)
    (hinv : q.Inv) : (q.add op k).2.Inv := by
  by_cases hk : k ∈ q.pendingWrites
  · rw [add_pending q k op hk]
    exact hinv
  · exact (add_new q k op hinv hk).2.2.2

/-- Every completion step keeps the invariant. -/
theorem resume_keeps_inv {W α : Type} (q q1 : WriteQueue W α) (fuel : Nat)
    (rt rt1 : Runtime W) (hinv : q.Inv) (h : q.resume fuel rt = some (q1, rt1)) : q1.Inv := by
  rcases hrun : q.running with _ | item
  · rw [resume_idle q fuel rt hrun] at h
    simp only [Option.some.injEq, Prod.mk.injEq] at h
    obtain ⟨rfl, -⟩ := h
    exact hinv
  · exact (resume_inv q q1 fuel rt rt1 item hinv hrun h).2.1

theorem entries_zero {W α : Type} (q : WriteQueue W α) (k : String)
    (h : k ∉ q.inFlight.map (fun i => i.key)) : q.entries k = 0 := by
  simp only [WriteQueue.entries, List.length_eq_zero, List.filter_eq_nil_iff]
  intro item hitem hkey
  exact h (List.mem_map.mpr ⟨item, hitem, by simpa using hkey⟩)

/-- Claim C4: when `k` is not pending, `add(op, k)` creates exactly one queue
entry for `k` and makes `k` pending; a second `add` for `k` while that write
is enqueued or running returns a resolved promise, enqueues nothing and leaves
the queue, the pending set and everything else unchanged; and along every
drain of the queue the operation of the entry is handed to the executor
exactly once. -/
theorem writeQueue_dedup {W α : Type} (q : WriteQueue W α) (k : String)
    (op op' : Operation W α) (hinv : q.Inv) (hk : k ∉ q.pendingWrites) :
    (q.add op k).1 = .created q.nextPromise ∧
    (q.add op k).2.inFlight = q.inFlight ++ [⟨op, q.nextPromise, k⟩] ∧
    (q.add op k).2.entries k = 1 ∧
    k ∈ (q.add op k).2.pendingWrites ∧
    (q.add op k).2.add op' k = (.settled (.resolve .undefined), (q.add op k).2) ∧
    (∀ q2 : WriteQueue W α, q2.Inv → (∃ item ∈ q2.inFlight, item.key = k) →
      q2.add op' k = (.settled (.resolve .undefined), q2)) ∧
    (∀ (fuel n : Nat) (rt rt1 : Runtime W) (q1 : WriteQueue W α),
      ((q.add op k).2.add op' k).2.drain fuel n rt = some (q1, rt1) →
      executions k rt1.trace + q1.entries k = executions k rt.trace + 1) ∧
    (∀ (fuel : Nat) (rt : Runtime W), rt.conn.maxRetries < fuel →
      (((q.add op k).2.add op' k).2.drain fuel (q.add op k).2.inFlight.length rt).map
          (fun s => (s.1.entries k, executions k s.2.trace))
        = some (0, executions k rt.trace + 1)) := by
  obtain ⟨hcreated, hfl, -, hinv1⟩ := add_new q k op hinv hk
  have hnot : k ∉ q.inFlight.map (fun i => i.key) := fun h => hk ((hinv.2.1 k).mpr h)
  have hent : (q.add op k).2.entries k = 1 := by
    have h0 := entries_zero q k hnot
    simp only [WriteQueue.entries] at h0 ⊢
    rw [hfl, List.filter_append, List.length_append, h0]
    simp
  have hmem : k ∈ (q.add op k).2.pendingWrites := by
    rw [hinv1.2.1 k, hfl]
    simp
  have hsecond := add_pending (q.add op k).2 k op' hmem
  have hdrain : ∀ (fuel n : Nat) (rt rt1 : Runtime W) (q1 : WriteQueue W α),
      ((q.add op k).2.add op' k).2.drain fuel n rt = some (q1, rt1) →
      executions k rt1.trace + q1.entries k = executions k rt.trace + 1 := by
    intro fuel n rt rt1 q1 h
    rw [hsecond] at h
    have := (drain_executions fuel n _ q1 rt rt1 hinv1 h).2 k
    rw [this, hent]
  refine ⟨hcreated, hfl, hent, hmem, hsecond, ?_, hdrain, ?_⟩
  · intro q2 hinv2 ⟨item, hitem, hkey⟩
    exact add_pending q2 k op' ((hinv2.2.1 k).mpr (List.mem_map.mpr ⟨item, hitem, hkey⟩))
  · intro fuel rt hfuel
    obtain ⟨q1, rt1, h1, h2⟩ := drain_total fuel (q.add op k).2.inFlight.length
      (q.add op k).2 rt hinv1 hfuel (Nat.le_refl _)
    have hsum := hdrain fuel _ rt rt1 q1 (by rw [hsecond]; exact h1)
    have hz : q1.entries k = 0 := by simp [WriteQueue.entries, h2]
    rw [hsecond]
    simp only [h1, Option.map_some', hz, Option.some.injEq, Prod.mk.injEq, true_and]
    omega

/-- Instance of `writeQueue_dedup`: two calls of `add(writeStub, k1)` on the
queue of a freshly loaded module. -/
theorem writeQueue_dedup_witness :
    ((WriteQueue.initial Nat String).add writeStub "k1").2.entries "k1" = 1 ∧
    (((WriteQueue.initial Nat String).add writeStub "k1").2.add writeStub "k1").1
      = .settled (.resolve .undefined) ∧
    (((WriteQueue.initial Nat String).add writeStub "k1").2.add writeStub "k1").2.entries "k1"
      = 1 ∧
    ((((WriteQueue.initial Nat String).add writeStub "k1").2.add writeStub "k1").2.drain 4
        ((WriteQueue.initial Nat String).add writeStub "k1").2.inFlight.length freshRuntime).map
          (fun s => (s.1.entries "k1", executions "k1" s.2.trace))
      = some (0, executions "k1" freshRuntime.trace + 1) :=
  ⟨(writeQueue_dedup (WriteQueue.initial Nat String) "k1" writeStub writeStub
      (initial_inv Nat String) (by decide)).2.2.1,
    by decide, by decide,
    (writeQueue_dedup (WriteQueue.initial Nat String) "k1" writeStub writeStub
      (initial_inv Nat String) (by decide)).2.2.2.2.2.2.2 4 freshRuntime (by decide)⟩

/-- On an idle queue `add` starts the new write at once. -/
theorem add_idle {W α : Type} (q : WriteQueue W α) (k : String) (op : Operation W α)
    (hinv : q.Inv) (hidle : q.running = none) :
    k ∉ q.pendingWrites ∧
    (q.add op k).2.running = some ⟨op, q.nextPromise, k⟩ ∧
    (q.add op k).2.settled = q.settled := by
  have hnil := inFlight_of_running_none q hinv hidle
  obtain ⟨-, h2, h3, h4⟩ := hinv
  have hk : k ∉ q.pendingWrites := by
    rw [h2 k, hnil]
    simp
  have hproc : q.isProcessing = false := by rw [h3, hidle]; rfl
  refine ⟨hk, ?_, ?_⟩
  · simp [WriteQueue.add, hk, WriteQueue.process, hproc, h4 hproc]
  · simp [WriteQueue.add, hk, WriteQueue.process, hproc, h4 hproc]

/-- The settlement of the running write is what its promise shows afterwards,
when the promise was pending. -/
theorem resume_outcome {W α : Type} (q : WriteQueue W α) (fuel : Nat) (rt : Runtime W)
    (item : QueuedWrite W α) (r : Except JSError α)
    (hrun : q.running = some item) (hpending : q.outcome item.promise = none)
    (hexec : (makeNetworkRequest item.operation fuel (rt.log (Event.execute item.key))).map
      (fun x => x.1) = some r) :
    (q.resume fuel rt).map (fun s => s.1.outcome item.promise)
      = some (some (settlementOf r)) := by
  rcases hx : makeNetworkRequest item.operation fuel (rt.log (Event.execute item.key))
    with _ | ⟨r1, rt1⟩
  · simp [hx] at hexec
  · simp only [hx, Option.map_some', Option.some.injEq] at hexec
    subst hexec
    rw [resume_running q fuel rt rt1 item r1 hrun hx]
    simp only [Option.map_some', WriteQueue.outcome, Option.some.injEq]
    rw [(process_fields _).2.1]
    simp only [WriteQueue.outcome, Option.map_eq_none'] at hpending
    simp [List.find?_append, hpending]

/-- Claim C5, amended: when two `add(op, k)` calls are made before the first
settles, the first caller receives the promise created for the new queue entry
and the second caller receives a promise that is resolved at once with
`undefined`, whatever the first write later settles with.  The promise of the
first caller settles, when its write completes, with the classified outcome of
the executor run of `op`: its result, `null` for a store-unavailable failure,
or the failure.  On an idle queue the write is started by the first call and
completes at the next `resume`. -/
theorem writeQueue_second_caller {W α : Type} (q : WriteQueue W α) (k : String)
    (op op' : Operation W α) (hinv : q.Inv) (hk : k ∉ q.pendingWrites) :
    (q.add op k).1 = .created q.nextPromise ∧
    (q.add op k).2.inFlight = q.inFlight ++ [⟨op, q.nextPromise, k⟩] ∧
    ((q.add op k).2.add op' k).1 = .settled (.resolve .undefined) ∧
    (∀ q2 : WriteQueue W α, k ∈ q2.pendingWrites →
      (q2.add op' k).1 = .settled (.resolve .undefined)) ∧
    (∀ (q2 : WriteQueue W α) (fuel : Nat) (rt : Runtime W) (r : Except JSError α),
      q2.running = some ⟨op, q.nextPromise, k⟩ → q2.outcome q.nextPromise = none →
      (makeNetworkRequest op fuel (rt.log (Event.execute k))).map (fun x => x.1) = some r →
      (q2.resume fuel rt).map (fun s => s.1.outcome q.nextPromise)
        = some (some (settlementOf r))) ∧
    (∀ (fuel : Nat) (rt : Runtime W) (r : Except JSError α),
      q.running = none → q.outcome q.nextPromise = none →
      (makeNetworkRequest op fuel (rt.log (Event.execute k))).map (fun x => x.1) = some r →
      (((q.add op k).2.add op' k).2.resume fuel rt).map (fun s => s.1.outcome q.nextPromise)
        = some (some (settlementOf r))) := by
  obtain ⟨hcreated, hfl, -, hinv1⟩ := add_new q k op hinv hk
  have hmem : k ∈ (q.add op k).2.pendingWrites := by
    rw [hinv1.2.1 k, hfl]
    simp
  have hsecond := add_pending (q.add op k).2 k op' hmem
  refine ⟨hcreated, hfl, by rw [hsecond], fun q2 h2 => by rw [add_pending q2 k op' h2], ?_, ?_⟩
  · intro q2 fuel rt r hrun hpending hexec
    exact resume_outcome q2 fuel rt ⟨op, q.nextPromise, k⟩ r hrun hpending hexec
  · intro fuel rt r hidle hfresh hexec
    obtain ⟨-, hrun, hset⟩ := add_idle q k op hinv hidle
    rw [hsecond]
    exact resume_outcome (q.add op k).2 fuel rt ⟨op, q.nextPromise, k⟩ r hrun
      (by simpa [WriteQueue.outcome, hset] using hfresh) hexec

/-- Instance of `writeQueue_second_caller`: two calls of `add(writeStub, k1)`
on the queue of a freshly loaded module, then the completion of the write. -/
theorem writeQueue_second_caller_witness :
    ((WriteQueue.initial Nat String).add writeStub "k1").1 = .created 0 ∧
    (((WriteQueue.initial Nat String).add writeStub "k1").2.add writeStub "k1").1
      = .settled (.resolve .undefined) ∧
    ((((WriteQueue.initial Nat String).add writeStub "k1").2.add writeStub "k1").2.resume 3
        freshRuntime).map (fun s => s.1.outcome 0)
      = some (some (.resolve (.value "doc-1"))) :=
  ⟨(writeQueue_second_caller (WriteQueue.initial Nat String) "k1" writeStub writeStub
      (initial_inv Nat String) (by decide)).1,
   (writeQueue_second_caller (WriteQueue.initial Nat String) "k1" writeStub writeStub
      (initial_inv Nat String) (by decide)).2.2.1,
   (writeQueue_second_caller (WriteQueue.initial Nat String) "k1" writeStub writeStub
      (initial_inv Nat String) (by decide)).2.2.2.2.2 3 freshRuntime (.ok "doc-1") rfl rfl
      (by decide)⟩

/-- Claim C5 fails as stated: of two `add` calls for `k1` made before the
first settles, the first caller obtains the document id (or, with a write that
is denied, a rejection), while the second caller obtains `undefined`. -/
theorem writeQueue_outcomes_differ :
    (((WriteQueue.initial Nat String).add writeStub "k1").2.add writeStub "k1").1
      = .settled (.resolve .undefined) ∧
    ((((WriteQueue.initial Nat String).add writeStub "k1").2.add writeStub "k1").2.resume 3
        freshRuntime).map (fun s => s.1.outcome 0)
      = some (some (.resolve (.value "doc-1"))) ∧
    (Settlement.resolve (.value "doc-1") : Settlement String) ≠ .resolve .undefined ∧
    (((WriteQueue.initial Nat String).add deniedWrite "k1").2.add deniedWrite "k1").1
      = .settled (.resolve .undefined) ∧
    ((((WriteQueue.initial Nat String).add deniedWrite "k1").2.add deniedWrite "k1").2.resume 3
        freshRuntime).map (fun s => s.1.outcome 0)
      = some (some (.reject ⟨"missing permissions", some "permission-denied"⟩)) := by
  decide

/-- Claim C6: when the executor run of the running write ends in a failure
whose `code` is `unavailable`, the promise that `add` returned for it is
resolved with `null` and not rejected; when it ends in any other failure, the
promise is rejected with exactly that failure; when it succeeds, the promise is
resolved with the result of the operation. -/
theorem writeQueue_settlement {W α : Type} (q : WriteQueue W α) (fuel : Nat) (rt : Runtime W)
    (item : QueuedWrite W α) (r : Except JSError α)
    (hrun : q.running = some item) (hpending : q.outcome item.promise = none)
    (hexec : (makeNetworkRequest item.operation fuel (rt.log (Event.execute item.key))).map
      (fun x => x.1) = some r) :
    (∀ e, r = .error e → e.code = some "unavailable" →
      (q.resume fuel rt).map (fun s => s.1.outcome item.promise)
        = some (some (.resolve .null))) ∧
    (∀ e, r = .error e → e.code ≠ some "unavailable" →
      (q.resume fuel rt).map (fun s => s.1.outcome item.promise)
        = some (some (.reject e))) ∧
    (∀ v, r = .ok v →
      (q.resume fuel rt).map (fun s => s.1.outcome item.promise)
        = some (some (.resolve (.value v)))) := by
  have h := resume_outcome q fuel rt item r hrun hpending hexec
  refine ⟨?_, ?_, ?_⟩
  · intro e he hcode
    rw [h, he]
    simp [settlementOf, hcode]
  · intro e he hcode
    rw [h, he]
    simp [settlementOf, hcode]
  · intro v hv
    rw [h, hv]
    simp [settlementOf]

/-- Instance of `writeQueue_settlement`: a write added to the queue of a
freshly loaded module fails three times with the code `unavailable`; the
promise returned by `add` is resolved with `null`. -/
theorem writeQueue_settlement_witness :
    ((WriteQueue.initial Nat String).add unavailableWrite "k1").1 = .created 0 ∧
    (makeNetworkRequest unavailableWrite 3 (freshRuntime.log (Event.execute "k1"))).map
      (fun x => (x.1, invocations x.2.trace))
      = some (.error ⟨"store unavailable", some "unavailable"⟩, 3) ∧
    (((WriteQueue.initial Nat String).add unavailableWrite "k1").2.resume 3 freshRuntime).map
        (fun s => s.1.outcome 0)
      = some (some (.resolve .null)) :=
  ⟨by decide, by decide,
    (writeQueue_settlement ((WriteQueue.initial Nat String).add unavailableWrite "k1").2 3
      freshRuntime ⟨unavailableWrite, 0, "k1"⟩
      (.error ⟨"store unavailable", some "unavailable"⟩) rfl rfl (by decide)).1
      ⟨"store unavailable", some "unavailable"⟩ rfl rfl⟩

/-! ## The risk colour -/

/-- Claim C12: for every numeric UV index `u`, NaN and the infinities
included, `getRiskColor(u)` is green exactly when `u < 3`, yellow exactly when
`3 <= u < 6`, orange exactly when `6 <= u < 8`, red exactly when `8 <= u < 11`
and violet exactly when `u >= 11`; the doubles 2.9, 3.0, 10.9 and 11.0 give
green, yellow, red and violet. -/
theorem getRiskColor_bands (u : JSNumber) :
    (getRiskColor u = "#4CAF50" ↔ u.ltConst 3 = true) ∧
    (getRiskColor u = "#FFC107" ↔ u.geConst 3 = true ∧ u.ltConst 6 = true) ∧
    (getRiskColor u = "#FF9800" ↔ u.geConst 6 = true ∧ u.ltConst 8 = true) ∧
    (getRiskColor u = "#F44336" ↔ u.geConst 8 = true ∧ u.ltConst 11 = true) ∧
    (getRiskColor u = "#673AB7" ↔ u.geConst 11 = true) ∧
    getRiskColor (.finite 6530219459687219 51) = "#4CAF50" ∧
    getRiskColor (.finite 3 0) = "#FFC107" ∧
    getRiskColor (.finite 6136154492292301 49) = "#F44336" ∧
    getRiskColor (.finite 11 0) = "#673AB7" := by
  refine ⟨?_, ?_, ?_, ?_, ?_, by decide, by decide, by decide, by decide⟩
  all_goals
    rcases u with _ | _ | _ | ⟨m, k⟩
    · simp [getRiskColor, JSNumber.ltConst, JSNumber.geConst]
    · simp [getRiskColor, JSNumber.ltConst, JSNumber.geConst]
    · simp [getRiskColor, JSNumber.ltConst, JSNumber.geConst]
    · have hpos : (0 : Int) < 2 ^ k := by positivity
      simp only [getRiskColor, JSNumber.ltConst, JSNumber.geConst, decide_eq_true_eq,
        reduceCtorEq, if_false]
      split_ifs <;> simp <;> omega

/-! ## The history feed -/

theorem applyChange_nil {D : Type} (c : Change D) :
    applyChange [] c = if c.type = ChangeType.added then [recordOf c] else [] := by
  simp [applyChange, findIndex]

theorem applyChange_cons_eq {D : Type} (x : UVRecord D) (xs : List (UVRecord D)) (c : Change D)
    (h : x.id = c.id) : applyChange (x :: xs) c = recordOf c :: xs := by
  simp [applyChange, findIndex, h]

theorem applyChange_cons_ne {D : Type} (x : UVRecord D) (xs : List (UVRecord D)) (c : Change D)
    (h : x.id ≠ c.id) : applyChange (x :: xs) c = x :: applyChange xs c := by
  rcases hf : findIndex (fun r => r.id == c.id) xs with _ | idx
  · by_cases ha : c.type = ChangeType.added <;> simp [applyChange, findIndex, h, hf, ha]
  · simp [applyChange, findIndex, h, hf]

/-- An id that is in the list: the record is replaced at the index that
`findIndex` returns, which is the first record with that id. -/
theorem applyChange_found {D : Type} (l : List (UVRecord D)) (c : Change D)
    (h : c.id ∈ l.map (fun r => r.id)) :
    ∃ idx, findIndex (fun r => r.id == c.id) l = some idx ∧
      applyChange l c = l.set idx (recordOf c) ∧
      (l.get? idx).map (fun r => r.id) = some c.id := by
  induction l with
  | nil => simp at h
  | cons x xs ih =>
    by_cases hx : x.id = c.id
    · exact ⟨0, by simp [findIndex, hx], by simp [applyChange, findIndex, hx], by simp [hx]⟩
    · have hmem : c.id ∈ xs.map (fun r => r.id) := by
        simp only [List.map_cons, List.mem_cons] at h
        rcases h with h | h
        · exact absurd h.symm hx
        · exact h
      obtain ⟨idx, h1, h2, h3⟩ := ih hmem
      refine ⟨idx + 1, by simp [findIndex, hx, h1], ?_, by simpa using h3⟩
      rw [applyChange_cons_ne x xs c hx, h2]
      simp

/-- An id that is not in the list: an added change appends its record, any
other change is dropped. -/
theorem applyChange_absent {D : Type} (l : List (UVRecord D)) (c : Change D)
    (h : c.id ∉ l.map (fun r => r.id)) :
    applyChange l c = if c.type = ChangeType.added then l ++ [recordOf c] else l := by
  induction l with
  | nil => simp [applyChange_nil]
  | cons x xs ih =>
    simp only [List.map_cons, List.mem_cons, not_or] at h
    rw [applyChange_cons_ne x xs c (fun hx => h.1 hx.symm), ih h.2]
    split <;> simp

/-- The ids after one change. -/
theorem applyChange_ids {D : Type} (l : List (UVRecord D)) (c : Change D) :
    (applyChange l c).map (fun r => r.id)
      = if c.id ∈ l.map (fun r => r.id) then l.map (fun r => r.id)
        else if c.type = ChangeType.added then l.map (fun r => r.id) ++ [c.id]
        else l.map (fun r => r.id) := by
  induction l with
  | nil => by_cases ha : c.type = ChangeType.added <;> simp [applyChange_nil, ha, recordOf]
  | cons x xs ih =>
    by_cases hx : x.id = c.id
    · simp [applyChange_cons_eq x xs c hx, hx, recordOf]
    · have hcx : ¬ c.id = x.id := fun h => hx h.symm
      rw [applyChange_cons_ne x xs c hx]
      by_cases hm : c.id ∈ xs.map (fun r => r.id)
      · simp only [List.map_cons, ih, List.mem_cons, hm, hcx, false_or, if_true]
      · by_cases ha : c.type = ChangeType.added <;>
          simp only [List.map_cons, ih, List.mem_cons, hm, hcx, false_or, if_false, ha,
            if_true, List.cons_append]

theorem applyChange_nodup {D : Type} (l : List (UVRecord D)) (c : Change D)
    (h : (l.map (fun r => r.id)).Nodup) : ((applyChange l c).map (fun r => r.id)).Nodup := by
  rw [applyChange_ids]
  split
  · exact h
  · rename_i hnot
    split
    · exact List.nodup_append.mpr ⟨h, by simp, by
        intro a ha hb
        simp only [List.mem_singleton] at hb
        subst hb
        exact hnot ha⟩
    · exact h

/-- The records after one change, for a list with pairwise distinct ids. -/
theorem mem_applyChange {D : Type} (l : List (UVRecord D)) (c : Change D) (r : UVRecord D)
    (h : (l.map (fun r => r.id)).Nodup) :
    r ∈ applyChange l c ↔
      (r = recordOf c ∧ (c.id ∈ l.map (fun r => r.id) ∨ c.type = ChangeType.added)) ∨
      (r ∈ l ∧ r.id ≠ c.id) := by
  induction l with
  | nil =>
    by_cases ha : c.type = ChangeType.added <;> simp [applyChange_nil, ha]
  | cons x xs ih =>
    simp only [List.map_cons, List.nodup_cons] at h
    by_cases hx : x.id = c.id
    · rw [applyChange_cons_eq x xs c hx]
      simp only [List.mem_cons, List.map_cons, hx, true_or, and_true]
      constructor
      · rintro (h1 | h1)
        · exact Or.inl h1
        · refine Or.inr ⟨Or.inr h1, fun hr => h.1 ?_⟩
          rw [hx, ← hr]
          exact List.mem_map.mpr ⟨r, h1, rfl⟩
      · rintro (h1 | ⟨h1 | h1, h2⟩)
        · exact Or.inl h1
        · exact absurd (h1 ▸ hx) h2
        · exact Or.inr h1
    · have hcx : ¬ c.id = x.id := fun h => hx h.symm
      rw [applyChange_cons_ne x xs c hx]
      simp only [List.mem_cons, ih h.2, List.map_cons, hcx, false_or]
      constructor
      · rintro (h1 | h1 | h1)
        · exact Or.inr ⟨Or.inl h1, h1 ▸ hx⟩
        · exact Or.inl h1
        · exact Or.inr ⟨Or.inr h1.1, h1.2⟩
      · rintro (h1 | ⟨h1 | h1, h2⟩)
        · exact Or.inr (Or.inl h1)
        · exact Or.inl h1
        · exact Or.inr (Or.inr ⟨h1, h2⟩)

theorem foldl_applyChange_nodup {D : Type} (changes : List (Change D))
    (prev : List (UVRecord D)) (h : (prev.map (fun r => r.id)).Nodup) :
    ((changes.foldl applyChange prev).map (fun r => r.id)).Nodup := by
  induction changes generalizing prev with
  | nil => exact h
  | cons c cs ih => exact ih _ (applyChange_nodup prev c h)

/-- A change does not touch the ids other than its own. -/
theorem mem_applyChange_ids {D : Type} (l : List (UVRecord D)) (c : Change D) (i : String)
    (h : i ≠ c.id) :
    i ∈ (applyChange l c).map (fun r => r.id) ↔ i ∈ l.map (fun r => r.id) := by
  rw [applyChange_ids]
  split
  · rfl
  · split
    · simp [h]
    · rfl

/-- The records after all changes of a buffer keyed by record id: the record
of every change whose id was in the list or whose type is `added`, and the
previous records that no change names. -/
theorem mem_foldl_applyChange {D : Type} (changes : List (Change D))
    (prev : List (UVRecord D)) (r : UVRecord D)
    (hprev : (prev.map (fun r => r.id)).Nodup) (hbuf : (changes.map (fun c => c.id)).Nodup) :
    r ∈ changes.foldl applyChange prev ↔
      (∃ c ∈ changes, r = recordOf c ∧
        (c.id ∈ prev.map (fun r => r.id) ∨ c.type = ChangeType.added)) ∨
      (r ∈ prev ∧ r.id ∉ changes.map (fun c => c.id)) := by
  induction changes generalizing prev with
  | nil => simp
  | cons c cs ih =>
    simp only [List.map_cons, List.nodup_cons] at hbuf
    rw [List.foldl_cons, ih (applyChange prev c) (applyChange_nodup prev c hprev) hbuf.2]
    have hne : ∀ d ∈ cs, d.id ≠ c.id := fun d hd heq =>
      hbuf.1 (heq ▸ List.mem_map.mpr ⟨d, hd, rfl⟩)
    have hrc : (recordOf c).id = c.id := rfl
    constructor
    · rintro (⟨d, hd, hr, hcond⟩ | ⟨hmem, hnot⟩)
      · refine Or.inl ⟨d, List.mem_cons_of_mem _ hd, hr, ?_⟩
        rcases hcond with hcond | hcond
        · exact Or.inl ((mem_applyChange_ids prev c d.id (hne d hd)).mp hcond)
        · exact Or.inr hcond
      · rcases (mem_applyChange prev c r hprev).mp hmem with ⟨hr, hcond⟩ | ⟨hr, hid⟩
        · exact Or.inl ⟨c, List.mem_cons_self _ _, hr, hcond⟩
        · refine Or.inr ⟨hr, ?_⟩
          simp only [List.map_cons, List.mem_cons, not_or]
          exact ⟨hid, hnot⟩
    · rintro (⟨d, hd, hr, hcond⟩ | ⟨hmem, hnot⟩)
      · rcases List.mem_cons.mp hd with rfl | hd
        · refine Or.inr ⟨(mem_applyChange prev d r hprev).mpr (Or.inl ⟨hr, hcond⟩), ?_⟩
          rw [hr, hrc]
          exact hbuf.1
        · refine Or.inl ⟨d, hd, hr, ?_⟩
          rcases hcond with hcond | hcond
          · exact Or.inl ((mem_applyChange_ids prev c d.id (hne d hd)).mpr hcond)
          · exact Or.inr hcond
      · simp only [List.map_cons, List.mem_cons, not_or] at hnot
        exact Or.inr ⟨(mem_applyChange prev c r hprev).mpr (Or.inr ⟨hmem, hnot.1⟩), hnot.2⟩

/-- Claim C13, amended: for every visible record list with pairwise distinct
ids and every buffer of changes keyed by record id, the flush upserts by id: a
change whose id is in the list replaces that record in place, an `added`
change with a new id appends one record, any other change with a new id is
dropped; the result consists of the records of the changes that were applied
and of the previous records that no change names, and has pairwise distinct
ids again.  The resulting list is sorted descending by timestamp, not
strictly: records with equal timestamps follow one another. -/
theorem processChanges_upsert {D : Type} (prev : List (UVRecord D))
    (changes : List (Change D))
    (hprev : (prev.map (fun r => r.id)).Nodup) (hbuf : (changes.map (fun c => c.id)).Nodup) :
    (∀ (l : List (UVRecord D)) (c : Change D), c.id ∈ l.map (fun r => r.id) →
      ∃ idx, findIndex (fun r => r.id == c.id) l = some idx ∧
        applyChange l c = l.set idx (recordOf c) ∧
        (l.get? idx).map (fun r => r.id) = some c.id) ∧
    (∀ (l : List (UVRecord D)) (c : Change D), c.id ∉ l.map (fun r => r.id) →
      applyChange l c = if c.type = ChangeType.added then l ++ [recordOf c] else l) ∧
    ((processChanges prev changes).map (fun r => r.id)).Nodup ∧
    (∀ r, r ∈ processChanges prev changes ↔
      (∃ c ∈ changes, r = recordOf c ∧
        (c.id ∈ prev.map (fun r => r.id) ∨ c.type = ChangeType.added)) ∨
      (r ∈ prev ∧ r.id ∉ changes.map (fun c => c.id))) ∧
    (processChanges prev changes).Pairwise (fun a b => b.timestamp ≤ a.timestamp) := by
  refine ⟨applyChange_found, applyChange_absent, ?_, ?_, ?_⟩
  · exact ((List.perm_insertionSort newerFirst _).map _).nodup_iff.mpr
      (foldl_applyChange_nodup changes prev hprev)
  · intro r
    rw [← mem_foldl_applyChange changes prev r hprev hbuf]
    exact (List.perm_insertionSort newerFirst _).mem_iff
  · exact List.sorted_insertionSort newerFirst _

/-- Instance of `processChanges_upsert`: the list `shownRecords` and the buffer
`bufferedChanges`. -/
theorem processChanges_upsert_witness :
    ((processChanges shownRecords bufferedChanges).map (fun r => r.id)).Nodup ∧
    (processChanges shownRecords bufferedChanges).Pairwise
      (fun a b => b.timestamp ≤ a.timestamp) ∧
    processChanges shownRecords bufferedChanges
      = [⟨"b", "uv 8", 3000⟩, ⟨"a", "uv 3", 2000⟩, ⟨"c", "uv 1", 1500⟩] :=
  ⟨(processChanges_upsert shownRecords bufferedChanges (by decide) (by decide)).2.2.1,
   (processChanges_upsert shownRecords bufferedChanges (by decide) (by decide)).2.2.2.2,
   by decide⟩

/-- Claim C13 fails as stated: two pending local writes flushed together get
the same timestamp from the clock, and the resulting list, with distinct ids,
is not strictly descending by timestamp. -/
theorem processChanges_not_strict :
    (pendingPair.map (fun c => c.id)).Nodup ∧
    processChanges [] pendingPair = [⟨"a", "uv 3", 1000⟩, ⟨"b", "uv 7", 1000⟩] ∧
    ¬ (processChanges [] pendingPair).Pairwise (fun a b => b.timestamp < a.timestamp) := by
  decide

/-! ## Sequential draining of the write queue -/

theorem openWrite_append (cur : Option Nat) (h h1 : List QueueEvent) :
    openWrite cur (h ++ h1) = (openWrite cur h).bind (fun c => openWrite c h1) := by
  induction h generalizing cur with
  | nil => simp [openWrite]
  | cons e h ih =>
    rcases e with ⟨p, k⟩ | ⟨p, k⟩ | ⟨p, k⟩ <;> rcases cur with _ | c <;>
      simp [openWrite, ih]
    split <;> simp [ih]

theorem enqueuedOf_append (h h1 : List QueueEvent) :
    enqueuedOf (h ++ h1) = enqueuedOf h ++ enqueuedOf h1 := by
  induction h with
  | nil => rfl
  | cons e h ih => cases e <;> simp [enqueuedOf, ih]

theorem startedOf_append (h h1 : List QueueEvent) :
    startedOf (h ++ h1) = startedOf h ++ startedOf h1 := by
  induction h with
  | nil => rfl
  | cons e h ih => cases e <;> simp [startedOf, ih]

/-- The first call of `add` for a key: on an idle queue the write is started at
once, on a busy queue it is put behind the writes that wait. -/
theorem add_state {W α : Type} (q : WriteQueue W α) (k : String) (op : Operation W α)
    (hinv : q.Inv) (hk : k ∉ q.pendingWrites) :
    (q.running = none →
      (q.add op k).2.running = some ⟨op, q.nextPromise, k⟩ ∧ (q.add op k).2.queue = [] ∧
      q.addEvents op k
        = [QueueEvent.enqueued q.nextPromise k, QueueEvent.started q.nextPromise k]) ∧
    (∀ x, q.running = some x →
      (q.add op k).2.running = some x ∧
      (q.add op k).2.queue = q.queue ++ [⟨op, q.nextPromise, k⟩] ∧
      q.addEvents op k = [QueueEvent.enqueued q.nextPromise k]) := by
  obtain ⟨-, -, h3, h4⟩ := hinv
  constructor
  · intro hrun
    have hproc : q.isProcessing = false := by rw [h3, hrun]; rfl
    simp [WriteQueue.add, WriteQueue.addEvents, WriteQueue.startEvents, hk, WriteQueue.process,
      hproc, h4 hproc]
  · intro x hrun
    have hproc : q.isProcessing = true := by rw [h3, hrun]; rfl
    simp [WriteQueue.add, WriteQueue.addEvents, WriteQueue.startEvents, hk, WriteQueue.process,
      hproc, hrun]

/-- The completion of the running write: the `finally` block removes its key
from the pending set, and only then `process` starts the head of the queue. -/
theorem resume_state {W α : Type} (q q1 : WriteQueue W α) (fuel : Nat) (rt rt1 : Runtime W)
    (item : QueuedWrite W α) (hrun : q.running = some item)
    (hres : q.resume fuel rt = some (q1, rt1)) :
    (∃ s, q1 = (q.finish item s).process ∧
      item.key ∉ (q.finish item s).pendingWrites ∧
      (q.finish item s).running = none ∧
      q.resumeEvents
        = QueueEvent.settled item.promise item.key :: (q.finish item s).startEvents) ∧
    item.key ∉ q1.pendingWrites ∧
    (q.queue = [] →
      q1.running = none ∧ q1.queue = [] ∧
      q.resumeEvents = [QueueEvent.settled item.promise item.key]) ∧
    (∀ y ys, q.queue = y :: ys →
      q1.running = some y ∧ q1.queue = ys ∧
      q.resumeEvents
        = [QueueEvent.settled item.promise item.key, QueueEvent.started y.promise y.key]) := by
  rcases hexec : makeNetworkRequest item.operation fuel (rt.log (Event.execute item.key))
    with _ | ⟨r, rt2⟩
  · simp [WriteQueue.resume, hrun, hexec] at hres
  · rw [resume_running q fuel rt rt2 item r hrun hexec] at hres
    simp only [Option.some.injEq, Prod.mk.injEq] at hres
    obtain ⟨hq, -⟩ := hres
    subst hq
    refine ⟨⟨settlementOf r, rfl, by simp [WriteQueue.finish, mem_setDelete], rfl, ?_⟩, ?_, ?_, ?_⟩
    · simp [WriteQueue.resumeEvents, hrun, WriteQueue.finish, WriteQueue.startEvents]
    · rw [(process_fields _).1]
      simp [mem_setDelete]
    · intro hnil
      simp [WriteQueue.process, WriteQueue.resumeEvents, WriteQueue.startEvents, hrun, hnil]
    · intro y ys hcons
      simp [WriteQueue.process, WriteQueue.resumeEvents, WriteQueue.startEvents, hrun, hcons]

/-- In every reachable state the invariant holds, the events so far are those
of a strictly sequential drain whose open write is the running one, and the
writes started are the writes enqueued minus those that wait, in order. -/
theorem reachable_log {W α : Type} (q : WriteQueue W α) (h : List QueueEvent)
    (hr : Reachable q h) :
    q.Inv ∧
    openWrite none h = some (q.running.map (fun i => i.promise)) ∧
    enqueuedOf h = startedOf h ++ q.queue.map (fun i => i.promise) := by
  induction hr with
  | initial =>
    exact ⟨initial_inv W α, rfl, rfl⟩
  | @add q h op k _ ih =>
    obtain ⟨hinv, hopen, hfifo⟩ := ih
    refine ⟨add_inv q k op hinv, ?_, ?_⟩
    · by_cases hk : k ∈ q.pendingWrites
      · simp [add_pending q k op hk, WriteQueue.addEvents, hk, hopen]
      · rcases hrun : q.running with _ | x
        · obtain ⟨h1, -, h3⟩ := (add_state q k op hinv hk).1 hrun
          rw [openWrite_append, hopen, hrun, h3, h1]
          rfl
        · obtain ⟨h1, -, h3⟩ := (add_state q k op hinv hk).2 x hrun
          rw [openWrite_append, hopen, hrun, h3, h1]
          rfl
    · by_cases hk : k ∈ q.pendingWrites
      · simp [add_pending q k op hk, WriteQueue.addEvents, hk, hfifo]
      · rcases hrun : q.running with _ | x
        · obtain ⟨-, h2, h3⟩ := (add_state q k op hinv hk).1 hrun
          have hnil := inFlight_of_running_none q hinv hrun
          simp only [WriteQueue.inFlight, hrun, Option.toList_none, List.nil_append] at hnil
          rw [enqueuedOf_append, startedOf_append, hfifo, h3, h2, hnil]
          simp [enqueuedOf, startedOf]
        · obtain ⟨-, h2, h3⟩ := (add_state q k op hinv hk).2 x hrun
          rw [enqueuedOf_append, startedOf_append, hfifo, h3, h2]
          simp [enqueuedOf, startedOf]
  | @resume q q1 h fuel rt rt1 _ hres ih =>
    obtain ⟨hinv, hopen, hfifo⟩ := ih
    refine ⟨resume_keeps_inv q q1 fuel rt rt1 hinv hres, ?_, ?_⟩
    · rcases hrun : q.running with _ | item
      · rw [resume_idle q fuel rt hrun] at hres
        simp only [Option.some.injEq, Prod.mk.injEq] at hres
        obtain ⟨rfl, -⟩ := hres
        simp [WriteQueue.resumeEvents, hrun, hopen]
      · obtain ⟨-, -, hempty, hcons⟩ := resume_state q q1 fuel rt rt1 item hrun hres
        rcases hq : q.queue with _ | ⟨y, ys⟩
        · obtain ⟨h1, -, h3⟩ := hempty hq
          rw [openWrite_append, hopen, hrun, h3, h1]
          simp [openWrite]
        · obtain ⟨h1, -, h3⟩ := hcons y ys hq
          rw [openWrite_append, hopen, hrun, h3, h1]
          simp [openWrite]
    · rcases hrun : q.running with _ | item
      · rw [resume_idle q fuel rt hrun] at hres
        simp only [Option.some.injEq, Prod.mk.injEq] at hres
        obtain ⟨rfl, -⟩ := hres
        simp [WriteQueue.resumeEvents, hrun, hfifo]
      · obtain ⟨-, -, hempty, hcons⟩ := resume_state q q1 fuel rt rt1 item hrun hres
        rcases hq : q.queue with _ | ⟨y, ys⟩
        · obtain ⟨-, h2, h3⟩ := hempty hq
          rw [enqueuedOf_append, startedOf_append, hfifo, h3, h2, hq]
          simp [enqueuedOf, startedOf]
        · obtain ⟨-, h2, h3⟩ := hcons y ys hq
          rw [enqueuedOf_append, startedOf_append, hfifo, h3, h2, hq]
          simp [enqueuedOf, startedOf]

/-- Claim C11: in every state that the write queue reaches from its initial
state by calls of `add` and completions of the running write, (1) the pending
set is exactly the set of keys of the writes that are enqueued or running, no
two of them have the same key, and `isProcessing` is set exactly while a write
is running; (2) the events so far, and every initial part of them, are those of
a strictly sequential drain: a write is started only when no write is running,
and the write that is started and not yet settled is the running one; (3) the
writes are started in the order in which they were enqueued, the writes not yet
started being those that wait in the queue; (4) when the running write
completes, its key is removed from the pending set before `process` starts the
next write. -/
theorem writeQueue_sequential_fifo {W α : Type} (q : WriteQueue W α) (h : List QueueEvent)
    (hr : Reachable q h) :
    ((q.inFlight.map (fun i => i.key)).Nodup ∧
      (∀ k, k ∈ q.pendingWrites ↔ k ∈ q.inFlight.map (fun i => i.key)) ∧
      q.isProcessing = q.running.isSome ∧
      (q.isProcessing = false → q.queue = [])) ∧
    openWrite none h = some (q.running.map (fun i => i.promise)) ∧
    (∀ h1 h2, h = h1 ++ h2 → (openWrite none h1).isSome = true) ∧
    enqueuedOf h = startedOf h ++ q.queue.map (fun i => i.promise) ∧
    startedOf h <+: enqueuedOf h ∧
    (∀ (fuel : Nat) (rt rt1 : Runtime W) (q1 : WriteQueue W α) (item : QueuedWrite W α),
      q.running = some item → q.resume fuel rt = some (q1, rt1) →
      (∃ s, q1 = (q.finish item s).process ∧
        item.key ∉ (q.finish item s).pendingWrites ∧
        (q.finish item s).running = none ∧
        q.resumeEvents
          = QueueEvent.settled item.promise item.key :: (q.finish item s).startEvents) ∧
      item.key ∉ q1.pendingWrites) := by
  obtain ⟨hinv, hopen, hfifo⟩ := reachable_log q h hr
  refine ⟨hinv, hopen, ?_, hfifo, ⟨_, hfifo.symm⟩, ?_⟩
  · intro h1 h2 hsplit
    rw [hsplit, openWrite_append] at hopen
    rcases hx : openWrite none h1 with _ | c
    · simp [hx] at hopen
    · rfl
  · intro fuel rt rt1 q1 item hrun hres
    obtain ⟨hfin, hkey, -, -⟩ := resume_state q q1 fuel rt rt1 item hrun hres
    exact ⟨hfin, hkey⟩

/-- Instance of `writeQueue_sequential_fifo`: on a freshly loaded module,
`add(writeStub, k1)`, `add(writeStub, k2)`, then the completion of the first
write. -/
theorem writeQueue_sequential_fifo_witness :
    twoWrites.resume 3 freshRuntime
      = some (afterFirstWrite, ⟨initialConnection [], 1,
          [Event.execute "k1", Event.enableNetwork, Event.invoke]⟩) ∧
    openWrite none
      [QueueEvent.enqueued 0 "k1", QueueEvent.started 0 "k1", QueueEvent.enqueued 1 "k2",
       QueueEvent.settled 0 "k1", QueueEvent.started 1 "k2"] = some (some 1) ∧
    enqueuedOf
      [QueueEvent.enqueued 0 "k1", QueueEvent.started 0 "k1", QueueEvent.enqueued 1 "k2",
       QueueEvent.settled 0 "k1", QueueEvent.started 1 "k2"]
      = startedOf
        [QueueEvent.enqueued 0 "k1", QueueEvent.started 0 "k1", QueueEvent.enqueued 1 "k2",
         QueueEvent.settled 0 "k1", QueueEvent.started 1 "k2"] ++ [] :=
  ⟨rfl,
   (writeQueue_sequential_fifo afterFirstWrite _
      (Reachable.resume 3 freshRuntime
        ⟨initialConnection [], 1, [Event.execute "k1", Event.enableNetwork, Event.invoke]⟩
        (Reachable.add writeStub "k2" (Reachable.add writeStub "k1" Reachable.initial))
        rfl)).2.1,
   (writeQueue_sequential_fifo afterFirstWrite _
      (Reachable.resume 3 freshRuntime
        ⟨initialConnection [], 1, [Event.execute "k1", Event.enableNetwork, Event.invoke]⟩
        (Reachable.add writeStub "k2" (Reachable.add writeStub "k1" Reachable.initial))
        rfl)).2.2.2.1⟩

end ApiUsage
